import Mathlib

/-!
Verification of the muchopper state store, mirror reconciliation and search
pagination against a shallow embedding of `src/muchopper`.

Strings are modelled as `List Char`, timestamps and floats as `ℚ`, database
tables as lists of rows, and the in-memory address-metadata cache as an
association list ordered by recency of use.
-/

set_option maxHeartbeats 1000000

namespace Muchopper


/-- Python strings are modelled as lists of characters. -/
abbrev PyStr := List Char

/-- Model of Python's whitespace test as used by `str.split()` / `str.strip()`
(ASCII whitespace characters). -/
def isSpace (c : Char) : Bool :=
  c = ' ' || c = '\t' || c = '\n' || c = '\r' || c = '\x0b' || c = '\x0c'

/-- Helper for `str.split()`: accumulates the current word (reversed) while
scanning. -/
def splitAux : PyStr → PyStr → List PyStr
  | [], acc => if acc.isEmpty then [] else [acc.reverse]
  | c :: rest, acc =>
    if isSpace c then
      if acc.isEmpty then splitAux rest [] else acc.reverse :: splitAux rest []
    else
      splitAux rest (c :: acc)

/-- Model of Python's `str.split()` (split on runs of whitespace, dropping
empty tokens). -/
def pySplit (s : PyStr) : List PyStr := splitAux s []

/-- Model of `" ".join(ws)`. -/
def joinSpace : List PyStr → PyStr
  | [] => []
  | [w] => w
  | w :: ws => w ++ ' ' :: joinSpace ws

/-- Model of Python's `str.strip()`. -/
def pyStrip (s : PyStr) : PyStr :=
  (((s.dropWhile (fun c => isSpace c)).reverse.dropWhile (fun c => isSpace c))).reverse

/-- The whitespace-collapsing step of `process_text`:
`" ".join(text.strip().split())`. -/
def collapse (s : PyStr) : PyStr := joinSpace (pySplit (pyStrip s))

/-- The `length_hard_limit = length_hard_limit or length_soft_limit*2` line:
`none` is the default argument, and a supplied `0` is falsy in Python. -/
def hardLimit (soft : ℕ) : Option ℕ → ℕ
  | some h => if h = 0 then soft * 2 else h
  | none => soft * 2

/-- The hard-limit truncation step of `process_text`. -/
def truncHard (s : PyStr) (hard : ℕ) : PyStr :=
  if s.length > hard then s.take hard else s

/-- The soft-limit truncation step of `process_text`: truncate to `soft - 1`
characters and append an ellipsis. -/
def truncSoft (s : PyStr) (soft : ℕ) : PyStr :=
  if s.length > soft then s.take (soft - 1) ++ ['…'] else s

/-- Embedding of `process_text(text, length_soft_limit, length_hard_limit=None)`
from `src/muchopper/bot/state.py`: truncate to the hard limit, collapse
whitespace, then apply the soft-limit truncation. -/
def process_text (s : PyStr) (soft : ℕ) (hardArg : Option ℕ) : PyStr :=
  truncSoft (collapse (truncHard s (hardLimit soft hardArg))) soft

/-! ## Data model

Embedding of `src/muchopper/common/model.py`: rows are structures, tables are
lists of rows, `DateTime` and `Float` columns are `ℚ`, nullable columns are
`Option`. -/

/-- Chat addresses (`aioxmpp.JID`): localpart and domain; the resource part
plays no role in the verified operations. -/
structure JID where
  localpart : Option String
  domain : String
deriving DecidableEq

/-- `model.AnonymityMode`. -/
inductive AnonymityMode
  | full
  | semi
  | nonanonymous
deriving DecidableEq

/-- `utils.AddressMetadata`.  `is_joinable_muc` is `Option Bool` because the
DB-synthesised value is the possibly-NULL `is_open` column. -/
structure AddressMetadata where
  is_reachable : Bool
  is_muc : Bool
  is_joinable_muc : Option Bool
  is_indexable_muc : Bool
  is_banned : Bool
deriving DecidableEq

/-- A row of the `muc` table (`model.MUC`).  `service_domain` stands for the
`domain_id` foreign key, resolved to the domain name. -/
structure MUCRow where
  address : JID
  service_domain : String
  last_seen : Option ℚ
  nusers : Option ℚ
  nusers_moving_average : Option ℚ
  moving_average_last_update : Option ℚ
  is_open : Option Bool
  is_hidden : Bool
  was_kicked : Bool
  anonymity_mode : Option AnonymityMode
deriving DecidableEq

/-- A row of the `public_muc` table (`model.PubliclyListedMUC`). -/
structure PublicRow where
  address : JID
  subject : Option PyStr
  name : Option PyStr
  description : Option PyStr
  language : Option PyStr
  http_logs_url : Option PyStr
  web_chat_url : Option PyStr
deriving DecidableEq

/-- A row of the `avatar` table (`model.Avatar`); avatar bytes are `List ℕ`. -/
structure AvatarRow where
  address : JID
  last_updated : ℚ
  mime_type : PyStr
  data : List ℕ
  hash_ : PyStr
deriving DecidableEq

/-- A row of the `domain` table (`model.Domain`), restricted to the fields
touched by the verified operations. -/
structure DomainRow where
  domain : String
  last_seen : Option ℚ
deriving DecidableEq

/-- The relational store. -/
structure Database where
  domains : List DomainRow
  mucs : List MUCRow
  publics : List PublicRow
  avatars : List AvatarRow
deriving DecidableEq

/-- The in-memory address-metadata cache: entries `(address, expiry, meta)`,
most recently used first (model of `aioxmpp.cache.LRUDict`). -/
abbrev MetadataCache := List (JID × ℚ × AddressMetadata)

/-- `State` as far as the verified operations see it: the database and the
address-metadata cache. -/
structure StoreState where
  db : Database
  cache : MetadataCache
deriving DecidableEq

/-- The four text-length limits of `State.__init__`. -/
structure Limits where
  max_name_length : ℕ
  max_description_length : ℕ
  max_subject_length : ℕ
  max_language_length : ℕ
deriving DecidableEq

/-! ## Generic keyed-table operations -/

/-- `session.query(T).filter(T.address == a).one()`-style lookup. -/
def findBy {α : Type} (key : α → JID) (a : JID) : List α → Option α
  | [] => none
  | r :: t => if key r = a then some r else findBy key a t

/-- The effect of mutating an ORM row (or adding a new one) and committing. -/
def upsertBy {α : Type} (key : α → JID) (row : α) (t : List α) : List α :=
  if t.any (fun r => decide (key r = key row)) then
    t.map (fun r => if key r = key row then row else r)
  else t ++ [row]

/-- `session.query(T).filter(T.address == a).delete()`. -/
def eraseBy {α : Type} (key : α → JID) (a : JID) (t : List α) : List α :=
  t.filter (fun r => !decide (key r = a))

/-! ## Table-specific lookups -/

/-- `model.MUC.get(session, address)`. -/
def findMuc (db : Database) (a : JID) : Option MUCRow :=
  findBy MUCRow.address a db.mucs

/-- `model.PubliclyListedMUC.get(session, address)`. -/
def findPublic (db : Database) (a : JID) : Option PublicRow :=
  findBy PublicRow.address a db.publics

/-- `model.Avatar.get(session, address)`. -/
def findAvatar (db : Database) (a : JID) : Option AvatarRow :=
  findBy AvatarRow.address a db.avatars

/-! ## Store operations (`src/muchopper/bot/state.py`) -/

/-- A sentinel-guarded argument of `update_muc_metadata`: `none` is the
`UNCHANGED` sentinel, `some v` is a supplied value (which may itself be the
Python `None`, hence the nested `Option` at use sites). -/
abbrev Arg (α : Type) := Option α

/-- The keyword arguments of `update_muc_metadata`, all defaulting to
`UNCHANGED`. -/
structure UpdateArgs where
  nusers : Arg (Option ℚ) := none
  is_open : Arg (Option Bool) := none
  is_public : Arg (Option Bool) := none
  subject : Arg (Option PyStr) := none
  name : Arg (Option PyStr) := none
  description : Arg (Option PyStr) := none
  language : Arg (Option PyStr) := none
  was_kicked : Arg (Option Bool) := none
  is_saveable : Arg (Option Bool) := none
  anonymity_mode : Arg (Option AnonymityMode) := none
  http_logs_url : Arg (Option PyStr) := none
  web_chat_url : Arg (Option PyStr) := none
deriving DecidableEq

/-- The all-`UNCHANGED` argument record. -/
def UpdateArgs.unchanged : UpdateArgs := {}

/-- Embedding of the free function `merge(obj, attr, value)`: returns the new
field value and whether it changed.  `none` is the `UNCHANGED` sentinel. -/
def mergeField {α : Type} [DecidableEq α] (old : α) : Arg α → α × Bool
  | none => (old, false)
  | some v => if v = old then (old, false) else (v, true)

/-- Python truthiness of a sentinel-guarded optional boolean:
`UNCHANGED`, `None` and `False` are falsy. -/
def truthyB : Arg (Option Bool) → Bool
  | some (some true) => true
  | _ => false

/-- Python truthiness of a sentinel-guarded optional string:
`UNCHANGED`, `None` and the empty string are falsy. -/
def truthyS : Arg (Option PyStr) → Bool
  | some (some s) => !s.isEmpty
  | _ => false

/-- Python's `value or None` on an optional string. -/
def orNone : Option PyStr → Option PyStr
  | none => none
  | some s => if s.isEmpty then none else some s

/-- Embedding of `State._prepare_text_update`. -/
def prepare_text_update (v : Arg (Option PyStr)) (maxLen : ℕ) :
    Arg (Option PyStr) :=
  match v with
  | none => none
  | some v' =>
    match orNone v' with
    | none => some none
    | some s => some (some (process_text s maxLen none))

/-- `NUSERS_MOVING_AVERAGE_FACTOR = 0.82`. -/
def NUSERS_MOVING_AVERAGE_FACTOR : ℚ := 82 / 100

/-- `NUSERS_MOVING_AVERAGE_INTERVAL = timedelta(hours=0.95)`, in seconds. -/
def NUSERS_MOVING_AVERAGE_INTERVAL : ℚ := 3420

/-- One exponential-moving-average step:
`ema·α + n·(1−α)` with `α = 0.82`. -/
def emaStep (ma n : ℚ) : ℚ :=
  ma * NUSERS_MOVING_AVERAGE_FACTOR + n * (1 - NUSERS_MOVING_AVERAGE_FACTOR)

/-! ### Address-metadata cache -/

/-- `self._address_metadata_cache.maxsize = 512`. -/
def CACHE_MAXSIZE : ℕ := 512

/-- `self._address_metadata_cache.pop(address, None)`. -/
def cachePop (cache : MetadataCache) (a : JID) : MetadataCache :=
  cache.filter (fun e => !decide (e.1 = a))

/-- `self._address_metadata_cache[address]` (read). -/
def cacheLookup (cache : MetadataCache) (a : JID) :
    Option (ℚ × AddressMetadata) :=
  (findBy Prod.fst a cache).map Prod.snd

/-- Embedding of `State.expire_metadata_cache`: erase every entry whose expiry
is at or before `now`. -/
def expire_metadata_cache (cache : MetadataCache) (now : ℚ) : MetadataCache :=
  cache.filter (fun e => !decide (e.2.1 ≤ now))

/-- `self._address_metadata_cache[address] = (expiry, metadata)`: model of the
external `aioxmpp.cache.LRUDict` store, most recently used first, evicting the
least recently used entry when at capacity. -/
def cacheStore (cache : MetadataCache) (a : JID) (expiry : ℚ)
    (m : AddressMetadata) : MetadataCache :=
  (a, expiry, m) :: (cachePop cache a).take (CACHE_MAXSIZE - 1)

/-! ### Store mutators and queries -/

/-- Embedding of `State.delete_all_muc_data`: the bulk delete of the `muc` row
cascades to `public_muc` and `avatar` (FK `ondelete="CASCADE"`). -/
def delete_all_muc_data (db : Database) (a : JID) : Database :=
  { db with mucs := eraseBy MUCRow.address a db.mucs,
            publics := eraseBy PublicRow.address a db.publics,
            avatars := eraseBy AvatarRow.address a db.avatars }

/-- Embedding of `State.get_address_metadata`: returns the result and the
cache after the call (expired entries are deleted on lookup). -/
def get_address_metadata (st : StoreState) (a : JID) (now : ℚ) :
    Option AddressMetadata × MetadataCache :=
  match findMuc st.db a with
  | some muc =>
      (some { is_reachable := true, is_muc := true,
              is_joinable_muc := muc.is_open,
              is_indexable_muc := (findPublic st.db a).isSome,
              is_banned := false }, st.cache)
  | none =>
      match cacheLookup st.cache a with
      | none => (none, st.cache)
      | some (ttl, data) =>
          if now ≥ ttl then (none, cachePop st.cache a)
          else (some data, st.cache)

/-- `State._require_domain(session, domain)` followed by
`domain.last_seen = now`, as performed on the room-creation path of
`update_muc_metadata`. -/
def requireDomainTouch (domains : List DomainRow) (d : String) (now : ℚ) :
    List DomainRow :=
  if domains.any (fun r => decide (r.domain = d)) then
    domains.map (fun r => if r.domain = d then { r with last_seen := some now }
      else r)
  else domains ++ [{ domain := d, last_seen := some now }]

/-- The fresh `model.MUC()` row built on the creation path of
`update_muc_metadata` (`was_kicked = False`; `is_hidden` has column default
`False`; every other column starts out NULL). -/
def freshMucRow (addr : JID) : MUCRow :=
  { address := addr, service_domain := addr.domain, last_seen := none,
    nusers := none, nusers_moving_average := none,
    moving_average_last_update := none, is_open := none, is_hidden := false,
    was_kicked := false, anonymity_mode := none }

/-- The moving-average initialisation of `update_muc_metadata`: when
`nusers_moving_average` is NULL it is set to the (just merged) `nusers` and
the last-update timestamp is set to `now`. -/
def maInit (m : MUCRow) (now : ℚ) : MUCRow :=
  if m.nusers_moving_average = none then
    { m with nusers_moving_average := m.nusers,
             moving_average_last_update := some now }
  else m

/-- The moving-average recomputation of `update_muc_metadata`, entered when
`nusers` was supplied (`v` is its possibly-NULL value).  `none` models the
`TypeError` the Python code raises when NULLs reach the arithmetic. -/
def maEma (m : MUCRow) (v : Option ℚ) (now : ℚ) : Option MUCRow :=
  match m.moving_average_last_update with
  | none => none
  | some t =>
    if t + NUSERS_MOVING_AVERAGE_INTERVAL < now then
      match m.nusers_moving_average, v with
      | some mavg, some n =>
          some { m with nusers_moving_average := some (emaStep mavg n),
                        moving_average_last_update := some now }
      | _, _ => none
    else some m

/-- The sequential `merge` calls of `update_muc_metadata` on the MUC row
(`muc.last_seen = now` through `merge(muc, "nusers", nusers)`): each merge
reads only the field it writes, so the sequence amounts to a simultaneous
field update. -/
def mergedRow (m0 : MUCRow) (a : UpdateArgs) (now : ℚ) : MUCRow :=
  { m0 with
    last_seen := some now
    is_open := (mergeField m0.is_open a.is_open).1
    anonymity_mode := (mergeField m0.anonymity_mode a.anonymity_mode).1
    was_kicked := m0.was_kicked || truthyB a.was_kicked
    nusers := (mergeField m0.nusers a.nusers).1 }

/-- The disjunction of the `merge` change flags on the MUC row. -/
def coreFlags (m0 : MUCRow) (a : UpdateArgs) : Bool :=
  (mergeField m0.is_open a.is_open).2 ||
    (mergeField m0.anonymity_mode a.anonymity_mode).2 ||
    (mergeField m0.nusers a.nusers).2

/-- The MUC-row part of `update_muc_metadata` (lines `muc.last_seen = now`
through the moving-average update).  Returns the updated row and the
disjunction of the `merge` change flags, or `none` where the Python code
raises `TypeError` (arithmetic on a NULL). -/
def mucAfterCore (m0 : MUCRow) (a : UpdateArgs) (now : ℚ) :
    Option (MUCRow × Bool) :=
  match a.nusers with
  | none => some (maInit (mergedRow m0 a now) now, coreFlags m0 a)
  | some v => (maEma (maInit (mergedRow m0 a now) now) v now).map
      (fun m7 => (m7, coreFlags m0 a))

/-- The fresh `model.PubliclyListedMUC()` row. -/
def freshPublicRow (addr : JID) : PublicRow :=
  { address := addr, subject := none, name := none, description := none,
    language := none, http_logs_url := none, web_chat_url := none }

/-- The PublicRoom part of the public branch of `update_muc_metadata`:
the six `merge` calls on a found-or-created row.  Returns the row after and
whether anything changed (creation included). -/
def publicAfterCore (addr : JID) (pFound : Option PublicRow)
    (subject name description language http_logs web_chat :
      Arg (Option PyStr)) : PublicRow × Bool :=
  let p0 := pFound.getD (freshPublicRow addr)
  let ms := mergeField p0.subject subject
  let p1 := { p0 with subject := ms.1 }
  let mn := mergeField p1.name name
  let p2 := { p1 with name := mn.1 }
  let md := mergeField p2.description description
  let p3 := { p2 with description := md.1 }
  let ml := mergeField p3.language language
  let p4 := { p3 with language := ml.1 }
  let mh := mergeField p4.http_logs_url http_logs
  let p5 := { p4 with http_logs_url := mh.1 }
  let mw := mergeField p5.web_chat_url web_chat
  let p6 := { p5 with web_chat_url := mw.1 }
  (p6, pFound.isNone || ms.2 || mn.2 || md.2 || ml.2 || mh.2 || mw.2)

/-- The outcome of `update_muc_metadata`: the new store state and whether the
`on_muc_changed` signal fired. -/
structure UpdateOutcome where
  db : Database
  cache : MetadataCache
  muc_changed : Bool
deriving DecidableEq

/-- The prepared `description` argument of `update_muc_metadata`. -/
def preparedDescription (lim : Limits) (a : UpdateArgs) : Arg (Option PyStr) :=
  prepare_text_update a.description lim.max_description_length

/-- The prepared `name` argument: the name may use the description's length
budget when the (prepared) description is not truthy. -/
def preparedName (lim : Limits) (a : UpdateArgs) : Arg (Option PyStr) :=
  prepare_text_update a.name
    (if truthyS (preparedDescription lim a) then lim.max_name_length
     else lim.max_description_length)

/-- The prepared `subject` argument. -/
def preparedSubject (lim : Limits) (a : UpdateArgs) : Arg (Option PyStr) :=
  prepare_text_update a.subject lim.max_subject_length

/-- The prepared `language` argument: `language or None`, truncated without
normalisation. -/
def preparedLanguage (lim : Limits) (a : UpdateArgs) : Arg (Option PyStr) :=
  match a.language with
  | none => none
  | some v => match orNone v with
    | none => some none
    | some s => some (some (s.take lim.max_language_length))

/-- The condition guarding the PublicRoom create/update branch of
`update_muc_metadata`:
`is_public or (is_public is UNCHANGED and (subject or name or description))`,
on the prepared values. -/
def publicCondition (lim : Limits) (a : UpdateArgs) : Bool :=
  truthyB a.is_public ||
    (a.is_public.isNone &&
      (truthyS (preparedSubject lim a) || truthyS (preparedName lim a) ||
        truthyS (preparedDescription lim a)))

/-- Embedding of `State.update_muc_metadata`.  Returns `none` exactly where
the Python code raises (`TypeError` on NULL arithmetic in the moving-average
update); the session then rolls back and no signal is emitted. -/
def update_muc_metadata (lim : Limits) (st : StoreState) (addr : JID)
    (a : UpdateArgs) (now : ℚ) : Option UpdateOutcome :=
  if a.is_saveable = some (some false) then
    some { db := delete_all_muc_data st.db addr,
           cache := cachePop st.cache addr, muc_changed := false }
  else
    match mucAfterCore ((findMuc st.db addr).getD (freshMucRow addr)) a now
      with
    | none => none
    | some (m7, coreChanged) =>
      if publicCondition lim a then
        some { db :=
                 { domains := (if (findMuc st.db addr).isSome then
                     st.db.domains
                   else requireDomainTouch st.db.domains addr.domain now),
                   mucs := upsertBy MUCRow.address m7 st.db.mucs,
                   publics := upsertBy PublicRow.address
                     (publicAfterCore addr (findPublic st.db addr)
                       (preparedSubject lim a) (preparedName lim a)
                       (preparedDescription lim a) (preparedLanguage lim a)
                       a.http_logs_url a.web_chat_url).1 st.db.publics,
                   avatars := st.db.avatars },
               cache := cachePop st.cache addr,
               muc_changed := ((findMuc st.db addr).isNone || coreChanged ||
                 (publicAfterCore addr (findPublic st.db addr)
                   (preparedSubject lim a) (preparedName lim a)
                   (preparedDescription lim a) (preparedLanguage lim a)
                   a.http_logs_url a.web_chat_url).2) }
      else if a.is_public = some (some false) then
        some { db :=
                 { domains := (if (findMuc st.db addr).isSome then
                     st.db.domains
                   else requireDomainTouch st.db.domains addr.domain now),
                   mucs := upsertBy MUCRow.address m7 st.db.mucs,
                   publics := eraseBy PublicRow.address addr st.db.publics,
                   avatars := st.db.avatars },
               cache := cachePop st.cache addr,
               muc_changed := ((findMuc st.db addr).isNone || coreChanged ||
                 (findPublic st.db addr).isSome) }
      else
        some { db :=
                 { domains := (if (findMuc st.db addr).isSome then
                     st.db.domains
                   else requireDomainTouch st.db.domains addr.domain now),
                   mucs := upsertBy MUCRow.address m7 st.db.mucs,
                   publics := st.db.publics,
                   avatars := st.db.avatars },
               cache := cachePop st.cache addr,
               muc_changed := ((findMuc st.db addr).isNone || coreChanged) }

/-- Embedding of `State.cache_address_metadata`.  Note that in the
reachable-but-not-joinable/indexable case the code calls
`delete_all_muc_data` and then still falls through to the cache insertion. -/
def cache_address_metadata (lim : Limits) (st : StoreState) (addr : JID)
    (metadata : AddressMetadata) (ttl : ℚ) (now : ℚ) : Option UpdateOutcome :=
  if metadata.is_joinable_muc = some true || metadata.is_indexable_muc then
    update_muc_metadata lim st addr
      { is_open := some metadata.is_joinable_muc,
        is_public := some (some metadata.is_indexable_muc) } now
  else
    let db1 := if metadata.is_reachable then delete_all_muc_data st.db addr
      else st.db
    let cache1 := if st.cache.length = CACHE_MAXSIZE &&
        (findBy Prod.fst addr st.cache).isNone then
        expire_metadata_cache st.cache now
      else st.cache
    some { db := db1, cache := cacheStore cache1 addr (now + ttl) metadata,
           muc_changed := false }

/-- The routing the claim asserts for `cache_address_metadata` (stated from
the claim's words for the refutation C6): an exclusive if/else chain in which
the reachable-but-not-chat-service case only deletes and the cache insertion
happens only in the final "otherwise" case. -/
def cache_address_metadata_claimed (lim : Limits) (st : StoreState)
    (addr : JID) (metadata : AddressMetadata) (ttl : ℚ) (now : ℚ) :
    Option UpdateOutcome :=
  if metadata.is_joinable_muc = some true || metadata.is_indexable_muc then
    update_muc_metadata lim st addr
      { is_open := some metadata.is_joinable_muc,
        is_public := some (some metadata.is_indexable_muc) } now
  else if metadata.is_reachable && !metadata.is_muc then
    some { db := delete_all_muc_data st.db addr, cache := st.cache,
           muc_changed := false }
  else
    let cache1 := if st.cache.length = CACHE_MAXSIZE &&
        (findBy Prod.fst addr st.cache).isNone then
        expire_metadata_cache st.cache now
      else st.cache
    some { db := st.db, cache := cacheStore cache1 addr (now + ttl) metadata,
           muc_changed := false }

/-- The Python-level filter `is_ok` inside
`State.get_joinable_mucs_with_user_count`. -/
def joinableIsOk (st : StoreState) (a : JID) (now : ℚ) : Bool :=
  match (get_address_metadata st a now).1 with
  | none => true
  | some md =>
      md.is_reachable && md.is_muc && (md.is_joinable_muc == some true) &&
        !md.is_banned

/-- Embedding of `State.get_joinable_mucs_with_user_count`: the SQL filter
(`is_open == True`, `nusers >= minusers`; SQL NULL comparisons are falsy)
followed by the Python-level metadata filter. -/
def get_joinable_mucs_with_user_count (st : StoreState) (minusers : ℚ)
    (now : ℚ) : List (JID × Option ℚ) :=
  (((st.db.mucs.filter (fun m =>
      decide (m.is_open = some true) &&
        (match m.nusers with
         | some n => decide (minusers ≤ n)
         | none => false))).filter
    (fun m => joinableIsOk st m.address now)).map
      (fun m => (m.address, m.nusers)))

/-- The plain database query of `get_joinable_mucs_with_user_count`, without
the Python-level metadata filter (stated from the spec for the refinement
claim C9): the `(address, nusers)` pairs of Room rows with `is_open = true`
and `nusers ≥ minusers`. -/
def plain_joinable_query (db : Database) (minusers : ℚ) :
    List (JID × Option ℚ) :=
  (db.mucs.filter (fun m =>
    decide (m.is_open = some true) &&
      (match m.nusers with
       | some n => decide (minusers ≤ n)
       | none => false))).map (fun m => (m.address, m.nusers))

/-- The `image/svg+xml` MIME type. -/
def svgMime : PyStr := "image/svg+xml".toList

/-- The final session block of `update_muc_avatar`: delete the avatar row when
data or MIME type is gone, otherwise store it iff the room is still publicly
listed. -/
def avatarFinalBlock (db : Database) (addr : JID)
    (dm : Option (List ℕ) × Option PyStr) (newHash : PyStr) (now : ℚ) :
    Database :=
  match dm with
  | (some d, some m) =>
    match findPublic db addr with
    | none => db
    | some _ =>
      let row : AvatarRow := { address := addr, last_updated := now,
                               mime_type := m, data := d, hash_ := newHash }
      { db with avatars := upsertBy AvatarRow.address row db.avatars }
  | _ => { db with avatars := eraseBy AvatarRow.address addr db.avatars }

/-- Embedding of `State.update_muc_avatar`.  `scale` models the external
PIL-based `scale_avatar` (raster rescaling), `hashF` models
`hash_avatar` (SHA-256 hex digest). -/
def update_muc_avatar (scale : List ℕ → PyStr → Option (List ℕ) × Option PyStr)
    (hashF : List ℕ → PyStr) (db : Database) (addr : JID)
    (mimetype0 : Option PyStr) (data0 : Option (List ℕ)) (now : ℚ) :
    Database :=
  let sized : Option (List ℕ) × Option PyStr :=
    match data0 with
    | some d => if d.length > 1024 * 1024 then (none, none) else (some d, mimetype0)
    | none => (none, mimetype0)
  match sized with
  | (some d, some mime) =>
    let newHash := hashF d
    match findPublic db addr with
    | none => db
    | some _ =>
      let existingHash := (findAvatar db addr).map AvatarRow.hash_
      if existingHash = some newHash then db
      else
        let processed : Option (List ℕ) × Option PyStr :=
          if mime ≠ svgMime then scale d mime
          else if d.length > 65535 then (none, none)
          else (some d, some mime)
        avatarFinalBlock db addr processed newHash now
  | dm => avatarFinalBlock db addr dm [] now

/-! ## Mirror reconciliation (`src/muchopper/bot/mirror.py`) -/

/-- Embedding of `queries.base_query(session, include_closed=False)`:
public rooms joined with their MUC row, filtered to open and non-hidden. -/
def base_query (db : Database) : List (MUCRow × PublicRow) :=
  db.mucs.filterMap (fun m =>
    if m.is_open = some true ∧ m.is_hidden = false then
      (findPublic db m.address).map (fun p => (m, p))
    else none)

/-- The reconciliation loop of `MirrorServer._stream_established`: walk the
local base-query rows, removing each address found in the remote item set and
enqueueing an update for each address missing remotely; the addresses left
over are enqueued for deletion. -/
def initSyncLoop : List (MUCRow × PublicRow) → List JID → List JID →
    List JID × List JID
  | [], existing, updates => (updates, existing)
  | (m, _) :: rest, existing, updates =>
    if m.address ∈ existing then
      initSyncLoop rest (existing.erase m.address) updates
    else
      initSyncLoop rest existing (updates ++ [m.address])

/-- The initial reconciliation diff: item addresses to publish and to
retract, given the local store and the remote node's item set. -/
def init_sync_diff (db : Database) (remote : List JID) :
    List JID × List JID :=
  initSyncLoop (base_query db) remote []

/-! ## Search pagination (`src/muchopper/bot/spokesman.py`) -/

/-- The effective page size computed by `Spokesman.handle_search`: `100` by
default; a supplied `rsm.max_` is applied only when positive, as
`max(min(100, max_), 1)`.  The argument is `none` when the request carries no
RSM set, `some none` when it carries one without `max_`. -/
def effectiveMax : Option (Option ℤ) → ℕ
  | none => 100
  | some none => 100
  | some (some m) => if 0 < m then (max (min 100 m) 1).toNat else 100

/-- The fetch-and-trim step of `handle_search`: fetch `max_ + 1` rows
(`q.limit(max_ + 1)`), compute `more`, and drop rows beyond `max_`. -/
def searchPage {α : Type} (rows : List α) (maxE : ℕ) : List α × Bool :=
  let results := rows.take (maxE + 1)
  (results.take maxE, decide (results.length > maxE))

/-- The page size the claim asserts: `max_` clamped into `[1, 100]`. -/
def claimedPageSize : Option (Option ℤ) → ℕ
  | some (some m) => (max 1 (min 100 m)).toNat
  | _ => 100


/-! ## Lemmas and claim theorems -/

/-- Tokens produced by `splitAux` are nonempty and whitespace-free when the
accumulator is whitespace-free. -/
theorem splitAux_words (s : PyStr) : ∀ acc, (∀ c ∈ acc, isSpace c = false) →
    ∀ w ∈ splitAux s acc, w ≠ [] ∧ ∀ c ∈ w, isSpace c = false := by
  induction s with
  | nil =>
    intro acc hacc w hw
    cases acc with
    | nil => simp [splitAux] at hw
    | cons a as =>
      simp only [splitAux, List.isEmpty_cons, if_false, Bool.false_eq_true,
        List.mem_singleton] at hw
      subst hw
      refine ⟨by simp, ?_⟩
      intro c hc
      exact hacc c (List.mem_reverse.mp hc)
  | cons c rest ih =>
    intro acc hacc w hw
    by_cases hs : isSpace c
    · cases acc with
      | nil =>
        simp only [splitAux, hs, if_true, List.isEmpty_nil] at hw
        exact ih [] (by simp) w hw
      | cons a as =>
        simp only [splitAux, hs, if_true, List.isEmpty_cons, if_false,
          Bool.false_eq_true, List.mem_cons] at hw
        rcases hw with hw | hw
        · subst hw
          refine ⟨by simp, ?_⟩
          intro d hd
          exact hacc d (List.mem_reverse.mp hd)
        · exact ih [] (by simp) w hw
    · simp only [splitAux, hs, if_false, Bool.false_eq_true] at hw
      refine ih (c :: acc) ?_ w hw
      intro d hd
      rcases List.mem_cons.mp hd with hd | hd
      · subst hd; simpa using hs
      · exact hacc d hd

/-- Tokens of `pySplit` are nonempty and whitespace-free. -/
theorem pySplit_words (s : PyStr) :
    ∀ w ∈ pySplit s, w ≠ [] ∧ ∀ c ∈ w, isSpace c = false :=
  splitAux_words s [] (by simp)

/-- Scanning a whitespace-free block just accumulates it. -/
theorem splitAux_no_space_front (w : PyStr) :
    ∀ t acc, (∀ c ∈ w, isSpace c = false) →
    splitAux (w ++ t) acc = splitAux t (w.reverse ++ acc) := by
  induction w with
  | nil => intro t acc _; simp
  | cons c w' ih =>
    intro t acc hw
    have hc : isSpace c = false := hw c (List.mem_cons_self c w')
    have hstep : splitAux (c :: (w' ++ t)) acc = splitAux (w' ++ t) (c :: acc) := by
      simp [splitAux, hc]
    rw [List.cons_append, hstep,
      ih t (c :: acc) (fun d hd => hw d (List.mem_cons_of_mem c hd))]
    simp

/-- `pySplit` of a single nonempty word is that word. -/
theorem pySplit_word (w : PyStr) (hne : w ≠ [])
    (hw : ∀ c ∈ w, isSpace c = false) : pySplit w = [w] := by
  have h := splitAux_no_space_front w [] [] hw
  simp only [List.append_nil] at h
  unfold pySplit
  rw [h]
  simp [splitAux, List.isEmpty_iff, hne]

/-- Scanning an all-whitespace string only flushes the accumulator. -/
theorem splitAux_allspace (t : PyStr) (ht : ∀ c ∈ t, isSpace c = true) :
    ∀ acc, splitAux t acc = if acc.isEmpty then [] else [acc.reverse] := by
  induction t with
  | nil => intro acc; simp [splitAux]
  | cons c t' ih =>
    intro acc
    have hc : isSpace c = true := ht c (List.mem_cons_self c t')
    have ht' : ∀ d ∈ t', isSpace d = true :=
      fun d hd => ht d (List.mem_cons_of_mem c hd)
    have h0 : splitAux t' [] = [] := by simpa using ih ht' []
    simp only [splitAux, hc, if_true]
    by_cases he : acc.isEmpty
    · simp [he, h0]
    · simp [he, h0]

/-- An all-whitespace suffix does not affect splitting. -/
theorem splitAux_append_allspace (s : PyStr) :
    ∀ t acc, (∀ c ∈ t, isSpace c = true) →
    splitAux (s ++ t) acc = splitAux s acc := by
  induction s with
  | nil =>
    intro t acc ht
    rw [List.nil_append, splitAux_allspace t ht acc]
    simp [splitAux]
  | cons c s' ih =>
    intro t acc ht
    simp only [List.cons_append, splitAux]
    by_cases hs : isSpace c
    · simp only [hs, if_true]
      by_cases he : acc.isEmpty
      · simp [he, ih t [] ht]
      · simp [he, ih t [] ht]
    · simp [hs, ih t (c :: acc) ht]

/-- Leading whitespace does not affect splitting. -/
theorem pySplit_dropWhile (s : PyStr) :
    pySplit (s.dropWhile (fun c => isSpace c)) = pySplit s := by
  induction s with
  | nil => rfl
  | cons c s' ih =>
    by_cases hs : isSpace c
    · rw [List.dropWhile_cons_of_pos (by simpa using hs)]
      rw [ih]
      unfold pySplit
      simp [splitAux, hs]
    · rw [List.dropWhile_cons_of_neg (by simpa using hs)]

/-- Stripping does not affect splitting. -/
theorem pySplit_strip (s : PyStr) : pySplit (pyStrip s) = pySplit s := by
  unfold pyStrip
  set u := s.dropWhile (fun c => isSpace c) with hu
  have hsplit : u.reverse.takeWhile (fun c => isSpace c) ++
      u.reverse.dropWhile (fun c => isSpace c) = u.reverse :=
    List.takeWhile_append_dropWhile (p := fun c => isSpace c) (l := u.reverse)
  have hdecomp : u = (u.reverse.dropWhile (fun c => isSpace c)).reverse ++
      (u.reverse.takeWhile (fun c => isSpace c)).reverse := by
    conv_lhs => rw [← List.reverse_reverse u, ← hsplit]
    rw [List.reverse_append]
  have hws : ∀ c ∈ (u.reverse.takeWhile (fun c => isSpace c)).reverse,
      isSpace c = true := by
    intro c hc
    have := List.mem_takeWhile_imp (List.mem_reverse.mp hc)
    simpa using this
  calc pySplit (u.reverse.dropWhile (fun c => isSpace c)).reverse
      = splitAux ((u.reverse.dropWhile (fun c => isSpace c)).reverse ++
          (u.reverse.takeWhile (fun c => isSpace c)).reverse) [] := by
        unfold pySplit
        rw [splitAux_append_allspace _ _ [] hws]
    _ = pySplit u := by rw [← hdecomp]; rfl
    _ = pySplit s := by rw [hu, pySplit_dropWhile]

/-- `collapse` splits and rejoins; the strip is irrelevant. -/
theorem collapse_eq_join_split (s : PyStr) :
    collapse s = joinSpace (pySplit s) := by
  unfold collapse
  rw [pySplit_strip]

/-- Joining a list of words with single spaces and splitting again recovers
the word list. -/
theorem pySplit_joinSpace : ∀ ws : List PyStr,
    (∀ w ∈ ws, w ≠ [] ∧ ∀ c ∈ w, isSpace c = false) →
    pySplit (joinSpace ws) = ws := by
  intro ws
  induction ws with
  | nil => intro _; rfl
  | cons w ws' ih =>
    intro hws
    have hw := hws w (List.mem_cons_self w ws')
    cases ws' with
    | nil =>
      simp only [joinSpace]
      exact pySplit_word w hw.1 hw.2
    | cons v vs =>
      have hrest : pySplit (joinSpace (v :: vs)) = v :: vs :=
        ih (fun x hx => hws x (List.mem_cons_of_mem w hx))
      show pySplit (w ++ ' ' :: joinSpace (v :: vs)) = w :: v :: vs
      unfold pySplit
      rw [splitAux_no_space_front w _ [] hw.2]
      simp only [List.append_nil, splitAux]
      have hsp : isSpace ' ' = true := rfl
      rw [if_pos hsp]
      have hne : (w.reverse).isEmpty = false := by
        simp [List.isEmpty_iff, hw.1]
      rw [if_neg (by simp [hne])]
      rw [List.reverse_reverse]
      exact congrArg (w :: ·) hrest

/-- Collapsing whitespace is idempotent. -/
theorem collapse_idem (s : PyStr) : collapse (collapse s) = collapse s := by
  rw [collapse_eq_join_split s, collapse_eq_join_split (joinSpace (pySplit s))]
  rw [pySplit_joinSpace (pySplit s) (pySplit_words s)]

/-- `joinSpace` over a nonempty tail. -/
theorem joinSpace_cons (w : PyStr) (l : List PyStr) (h : l ≠ []) :
    joinSpace (w :: l) = w ++ ' ' :: joinSpace l := by
  cases l with
  | nil => exact absurd rfl h
  | cons v vs => rfl

/-- A nonempty whitespace-free string is a fixed point of `collapse`. -/
theorem collapse_word (t : PyStr) (hne : t ≠ [])
    (hw : ∀ c ∈ t, isSpace c = false) : collapse t = t := by
  rw [collapse_eq_join_split, pySplit_word t hne hw]
  rfl

/-- Truncating a collapsed string and appending a non-space character yields a
fixed point of `collapse`. -/
theorem collapse_take_append : ∀ ws : List PyStr,
    (∀ w ∈ ws, w ≠ [] ∧ ∀ c ∈ w, isSpace c = false) →
    ∀ k (c : Char), isSpace c = false →
    collapse (List.take k (joinSpace ws) ++ [c]) =
      List.take k (joinSpace ws) ++ [c] := by
  intro ws
  induction ws with
  | nil =>
    intro _ k c hc
    simp only [joinSpace, List.take_nil, List.nil_append]
    exact collapse_word [c] (by simp) (by simpa using hc)
  | cons w ws' ih =>
    intro hws k c hc
    have hw := hws w (List.mem_cons_self w ws')
    cases ws' with
    | nil =>
      simp only [joinSpace]
      refine collapse_word _ (by simp) ?_
      intro d hd
      rcases List.mem_append.mp hd with hd | hd
      · exact hw.2 d (List.take_subset k w hd)
      · rcases List.mem_singleton.mp hd with rfl; exact hc
    | cons v vs =>
      rw [joinSpace_cons w (v :: vs) (by simp)]
      by_cases hk : k ≤ w.length
      · have htk : List.take k (w ++ ' ' :: joinSpace (v :: vs)) =
            List.take k w := by
          rw [List.take_append_eq_append_take]
          have : k - w.length = 0 := Nat.sub_eq_zero_of_le hk
          rw [this, List.take_zero, List.append_nil]
        rw [htk]
        refine collapse_word _ (by simp) ?_
        intro d hd
        rcases List.mem_append.mp hd with hd | hd
        · exact hw.2 d (List.take_subset k w hd)
        · rcases List.mem_singleton.mp hd with rfl; exact hc
      · push_neg at hk
        have hrest : ∀ x ∈ v :: vs, x ≠ [] ∧ ∀ d ∈ x, isSpace d = false :=
          fun x hx => hws x (List.mem_cons_of_mem w hx)
        have htk : List.take k (w ++ ' ' :: joinSpace (v :: vs)) =
            w ++ ' ' :: List.take (k - w.length - 1) (joinSpace (v :: vs)) := by
          rw [List.take_append_eq_append_take]
          rw [List.take_of_length_le (le_of_lt hk)]
          congr 1
          obtain ⟨m, hm⟩ : ∃ m, k - w.length = m + 1 :=
            ⟨k - w.length - 1, by omega⟩
          rw [hm]
          simp only [List.take_succ_cons]
          congr 2
        rw [htk]
        set j := k - w.length - 1 with hj
        set R := List.take j (joinSpace (v :: vs)) ++ [c] with hR
        have hIH : collapse R = R := ih hrest j c hc
        have hRne : R ≠ [] := by simp [hR]
        have hassoc : (w ++ ' ' :: List.take j (joinSpace (v :: vs))) ++ [c] =
            w ++ ' ' :: R := by simp [hR]
        rw [hassoc]
        have hsplitR : pySplit (w ++ ' ' :: R) = w :: pySplit R := by
          unfold pySplit
          rw [splitAux_no_space_front w _ [] hw.2]
          simp only [List.append_nil, splitAux]
          have hsp : isSpace ' ' = true := rfl
          rw [if_pos hsp]
          have hne : (w.reverse).isEmpty = false := by
            simp [List.isEmpty_iff, hw.1]
          rw [if_neg (by simp [hne])]
          rw [List.reverse_reverse]
        have hsplitRne : pySplit R ≠ [] := by
          intro h0
          have : collapse R = joinSpace (pySplit R) := collapse_eq_join_split R
          rw [h0] at this
          rw [hIH] at this
          exact hRne this
        rw [collapse_eq_join_split, hsplitR,
          joinSpace_cons w (pySplit R) hsplitRne]
        have : joinSpace (pySplit R) = R := by
          rw [← collapse_eq_join_split, hIH]
        rw [this]

/-- The output of `process_text` (with default hard limit) is a fixed point of
whitespace collapsing. -/
theorem collapse_process_text (s : PyStr) (L : ℕ) :
    collapse (process_text s L none) = process_text s L none := by
  unfold process_text truncSoft
  set base := truncHard s (hardLimit L none) with hbase
  by_cases h : (collapse base).length > L
  · rw [if_pos h]
    have hell : isSpace '…' = false := by decide
    have := collapse_take_append (pySplit base) (pySplit_words base) (L - 1)
      '…' hell
    rw [← collapse_eq_join_split] at this
    exact this
  · rw [if_neg h]
    exact collapse_idem base

/-- The output of `process_text` (with default hard limit) has length at most
the soft limit, provided the soft limit is at least 1. -/
theorem process_text_length_le (s : PyStr) (L : ℕ) (hL : 1 ≤ L) :
    (process_text s L none).length ≤ L := by
  unfold process_text truncSoft
  set c := collapse (truncHard s (hardLimit L none)) with hc
  by_cases h : c.length > L
  · rw [if_pos h]
    have h1 : (List.take (L - 1) c).length = L - 1 := by
      rw [List.length_take]
      omega
    simp only [List.length_append, h1, List.length_singleton]
    omega
  · rw [if_neg h]
    omega

/-- C8: `process_text` is idempotent for every soft limit `L ≥ 1` and default
hard limit `2·L`: applying it twice equals applying it once. -/
theorem C8_process_text_idempotent (s : PyStr) (L : ℕ) (hL : 1 ≤ L) :
    process_text (process_text s L none) L none = process_text s L none := by
  set t := process_text s L none with ht
  have hlen : t.length ≤ L := process_text_length_le s L hL
  have hcol : collapse t = t := collapse_process_text s L
  show truncSoft (collapse (truncHard t (hardLimit L none))) L = t
  have hhard : hardLimit L none = L * 2 := rfl
  have h1 : truncHard t (hardLimit L none) = t := by
    unfold truncHard
    rw [if_neg]
    rw [hhard]
    omega
  rw [h1, hcol]
  unfold truncSoft
  rw [if_neg]
  omega

/-- Witness for C8 at a concrete input. -/
theorem C8_process_text_idempotent_witness :
    1 ≤ 3 ∧ process_text (process_text
      [' ', 'a', 'b', ' ', ' ', 'c', 'd', 'e', 'f'] 3 none) 3 none =
      process_text [' ', 'a', 'b', ' ', ' ', 'c', 'd', 'e', 'f'] 3 none :=
  ⟨by decide, C8_process_text_idempotent
    [' ', 'a', 'b', ' ', ' ', 'c', 'd', 'e', 'f'] 3 (by decide)⟩

theorem findBy_all_miss {α : Type} (key : α → JID) (a : JID) :
    ∀ t : List α, (∀ x ∈ t, ¬(key x = a)) → findBy key a t = none := by
  intro t
  induction t with
  | nil => intro _; rfl
  | cons r t' ih =>
    intro h
    have hr := h r (List.mem_cons_self r t')
    simp only [findBy, hr, if_false]
    exact ih (fun x hx => h x (List.mem_cons_of_mem r hx))

theorem findBy_append_of_none {α : Type} (key : α → JID) (a : JID)
    (t u : List α) (h : findBy key a t = none) :
    findBy key a (t ++ u) = findBy key a u := by
  induction t with
  | nil => rfl
  | cons r t' ih =>
    simp only [findBy] at h
    by_cases hr : key r = a
    · simp [hr] at h
    · simp only [hr, if_false] at h
      simpa [findBy, hr] using ih h

theorem findBy_upsertBy_self {α : Type} (key : α → JID) (row : α)
    (t : List α) : findBy key (key row) (upsertBy key row t) = some row := by
  unfold upsertBy
  by_cases h : t.any (fun r => decide (key r = key row))
  · rw [if_pos h]
    induction t with
    | nil => simp at h
    | cons r t' ih =>
      simp only [List.any_cons] at h
      by_cases hr : key r = key row
      · simp [findBy, hr]
      · have h' : t'.any (fun r => decide (key r = key row)) = true := by
          simpa [hr] using h
        simpa [findBy, hr] using ih h'
  · rw [if_neg h]
    have hmiss : findBy key (key row) t = none := by
      refine findBy_all_miss key (key row) t ?_
      intro x hx
      have := List.any_eq_false.mp (Bool.eq_false_iff.mpr h) x hx
      simpa using this
    rw [findBy_append_of_none key (key row) t [row] hmiss]
    simp [findBy]

theorem findBy_upsertBy_ne {α : Type} (key : α → JID) (row : α)
    (t : List α) (b : JID) (hb : b ≠ key row) :
    findBy key b (upsertBy key row t) = findBy key b t := by
  have hrowb : ¬(key row = b) := fun hc => hb hc.symm
  unfold upsertBy
  by_cases h : t.any (fun r => decide (key r = key row))
  · rw [if_pos h]
    clear h
    induction t with
    | nil => rfl
    | cons r t' ih =>
      by_cases hr : key r = key row
      · have hrb : ¬(key r = b) := by rw [hr]; exact hrowb
        simp [findBy, hr, hrb, hrowb, ih]
      · by_cases hrb : key r = b
        · simp [findBy, hr, hrb, hrowb, hb]
        · simp [findBy, hr, hrb, ih]
  · rw [if_neg h]
    cases hf : findBy key b t with
    | some x =>
      clear h
      induction t with
      | nil => simp [findBy] at hf
      | cons r t' ih =>
        simp only [findBy] at hf
        by_cases hr : key r = b
        · simp only [hr, if_true] at hf
          simp [findBy, hr, hf]
        · simp only [hr, if_false] at hf
          simpa [findBy, hr] using ih hf
    | none =>
      rw [findBy_append_of_none key b t [row] hf]
      simp [findBy, hrowb]

theorem findBy_eraseBy_self {α : Type} (key : α → JID) (a : JID)
    (t : List α) : findBy key a (eraseBy key a t) = none := by
  unfold eraseBy
  refine findBy_all_miss key a _ ?_
  intro x hx
  have := (List.mem_filter.mp hx).2
  simpa using this

theorem findBy_eraseBy_ne {α : Type} (key : α → JID) (a : JID)
    (t : List α) (b : JID) (hb : b ≠ a) :
    findBy key b (eraseBy key a t) = findBy key b t := by
  unfold eraseBy
  have hab : ¬(a = b) := fun hc => hb hc.symm
  induction t with
  | nil => rfl
  | cons r t' ih =>
    by_cases hr : key r = a
    · have hrb : ¬(key r = b) := by rw [hr]; exact hab
      simp [List.filter_cons, findBy, hr, hrb, hab, ih]
    · by_cases hrb : key r = b
      · simp [List.filter_cons, findBy, hr, hrb, hb, hab]
      · simp [List.filter_cons, findBy, hr, hrb, ih]

theorem mergeField_changed_iff {α : Type} [DecidableEq α] (old : α)
    (a : Arg α) : (mergeField old a).2 = true ↔ (mergeField old a).1 ≠ old := by
  cases a with
  | none => simp [mergeField]
  | some v =>
    by_cases hv : v = old
    · simp [mergeField, hv]
    · simp [mergeField, hv]

/-! ## C5: search page size and pagination -/

/-- C5 counterexample: a request with `rsm.max_ = 0` is not clamped into
`[1, 100]` (which would give 1); the code ignores non-positive `max_` and
uses the default of 100. -/
theorem C5_clamp_counterexample :
    effectiveMax (some (some 0)) = 100 ∧ claimedPageSize (some (some 0)) = 1 ∧
      effectiveMax (some (some 0)) ≠ claimedPageSize (some (some 0)) := by
  refine ⟨rfl, rfl, ?_⟩
  decide

/-- C5 amended: the effective page size is `min(max_, 100)` when a positive
`rsm.max_` is supplied and 100 otherwise (no RSM set, no `max_`, or
`max_ ≤ 0`); it always lies in `[1, 100]`; the handler fetches at most
`max_ + 1` rows, reports `more` exactly when `max_ + 1` rows were fetched,
and returns at most `max_` items. -/
theorem C5_page_size_amended :
    (∀ m : ℤ, 0 < m → effectiveMax (some (some m)) = (min 100 m).toNat) ∧
    (∀ m : ℤ, m ≤ 0 → effectiveMax (some (some m)) = 100) ∧
    effectiveMax none = 100 ∧ effectiveMax (some none) = 100 ∧
    (∀ r : Option (Option ℤ), 1 ≤ effectiveMax r ∧ effectiveMax r ≤ 100) ∧
    (∀ (rows : List ℕ) (k : ℕ),
      (searchPage rows k).1.length ≤ k ∧
      (rows.take (k + 1)).length ≤ k + 1 ∧
      ((searchPage rows k).2 = true ↔ (rows.take (k + 1)).length = k + 1)) := by
  refine ⟨?_, ?_, rfl, rfl, ?_, ?_⟩
  · intro m hm
    simp only [effectiveMax, if_pos hm]
    omega
  · intro m hm
    simp only [effectiveMax, if_neg (by omega : ¬(0 < m))]
  · intro r
    match r with
    | none => exact ⟨by decide, by decide⟩
    | some none => exact ⟨by decide, by decide⟩
    | some (some m) =>
      simp only [effectiveMax]
      by_cases hm : 0 < m
      · rw [if_pos hm]
        constructor <;> omega
      · rw [if_neg hm]
        exact ⟨by decide, by decide⟩
  · intro rows k
    refine ⟨?_, ?_, ?_⟩
    · simp only [searchPage, List.length_take]
      omega
    · simp only [List.length_take]
      omega
    · simp only [searchPage, decide_eq_true_eq, List.length_take]
      omega

/-- Witness for C5 amended at concrete inputs. -/
theorem C5_page_size_amended_witness :
    (0 < (7 : ℤ) ∧ effectiveMax (some (some 7)) = ((min 100 7 : ℤ)).toNat) ∧
    ((-3 : ℤ) ≤ 0 ∧ effectiveMax (some (some (-3))) = 100) ∧
    (searchPage [10, 20, 30] 2).1.length ≤ 2 :=
  ⟨⟨by decide, C5_page_size_amended.1 7 (by decide)⟩,
   ⟨by decide, C5_page_size_amended.2.1 (-3) (by decide)⟩,
   (C5_page_size_amended.2.2.2.2.2 [10, 20, 30] 2).1⟩

/-! ### Helper lemmas about the `update_muc_metadata` core -/

theorem maInit_address (m : MUCRow) (now : ℚ) :
    (maInit m now).address = m.address := by
  unfold maInit; split <;> rfl

theorem maInit_is_open (m : MUCRow) (now : ℚ) :
    (maInit m now).is_open = m.is_open := by
  unfold maInit; split <;> rfl

theorem maInit_anonymity_mode (m : MUCRow) (now : ℚ) :
    (maInit m now).anonymity_mode = m.anonymity_mode := by
  unfold maInit; split <;> rfl

theorem maInit_nusers (m : MUCRow) (now : ℚ) :
    (maInit m now).nusers = m.nusers := by
  unfold maInit; split <;> rfl

theorem maInit_was_kicked (m : MUCRow) (now : ℚ) :
    (maInit m now).was_kicked = m.was_kicked := by
  unfold maInit; split <;> rfl

theorem maInit_is_hidden (m : MUCRow) (now : ℚ) :
    (maInit m now).is_hidden = m.is_hidden := by
  unfold maInit; split <;> rfl

theorem maInit_last_seen (m : MUCRow) (now : ℚ) :
    (maInit m now).last_seen = m.last_seen := by
  unfold maInit; split <;> rfl

theorem maInit_service_domain (m : MUCRow) (now : ℚ) :
    (maInit m now).service_domain = m.service_domain := by
  unfold maInit; split <;> rfl

theorem maEma_fields (m : MUCRow) (v : Option ℚ) (now : ℚ) (m' : MUCRow)
    (h : maEma m v now = some m') :
    m'.address = m.address ∧ m'.service_domain = m.service_domain ∧
    m'.last_seen = m.last_seen ∧ m'.nusers = m.nusers ∧
    m'.is_open = m.is_open ∧ m'.is_hidden = m.is_hidden ∧
    m'.was_kicked = m.was_kicked ∧ m'.anonymity_mode = m.anonymity_mode := by
  unfold maEma at h
  split at h
  · exact absurd h (by simp)
  · split at h
    · split at h
      · obtain rfl : _ = m' := Option.some.inj h
        exact ⟨rfl, rfl, rfl, rfl, rfl, rfl, rfl, rfl⟩
      · exact absurd h (by simp)
    · obtain rfl : m = m' := Option.some.inj h
      exact ⟨rfl, rfl, rfl, rfl, rfl, rfl, rfl, rfl⟩

theorem mergedRow_address (m0 : MUCRow) (a : UpdateArgs) (now : ℚ) :
    (mergedRow m0 a now).address = m0.address := rfl

theorem mergedRow_service_domain (m0 : MUCRow) (a : UpdateArgs) (now : ℚ) :
    (mergedRow m0 a now).service_domain = m0.service_domain := rfl

theorem mergedRow_last_seen (m0 : MUCRow) (a : UpdateArgs) (now : ℚ) :
    (mergedRow m0 a now).last_seen = some now := rfl

theorem mergedRow_nusers (m0 : MUCRow) (a : UpdateArgs) (now : ℚ) :
    (mergedRow m0 a now).nusers = (mergeField m0.nusers a.nusers).1 := rfl

theorem mergedRow_nusers_moving_average (m0 : MUCRow) (a : UpdateArgs)
    (now : ℚ) : (mergedRow m0 a now).nusers_moving_average =
      m0.nusers_moving_average := rfl

theorem mergedRow_moving_average_last_update (m0 : MUCRow) (a : UpdateArgs)
    (now : ℚ) : (mergedRow m0 a now).moving_average_last_update =
      m0.moving_average_last_update := rfl

theorem mergedRow_is_open (m0 : MUCRow) (a : UpdateArgs) (now : ℚ) :
    (mergedRow m0 a now).is_open = (mergeField m0.is_open a.is_open).1 := rfl

theorem mergedRow_is_hidden (m0 : MUCRow) (a : UpdateArgs) (now : ℚ) :
    (mergedRow m0 a now).is_hidden = m0.is_hidden := rfl

theorem mergedRow_was_kicked (m0 : MUCRow) (a : UpdateArgs) (now : ℚ) :
    (mergedRow m0 a now).was_kicked =
      (m0.was_kicked || truthyB a.was_kicked) := rfl

theorem mergedRow_anonymity_mode (m0 : MUCRow) (a : UpdateArgs) (now : ℚ) :
    (mergedRow m0 a now).anonymity_mode =
      (mergeField m0.anonymity_mode a.anonymity_mode).1 := rfl

theorem mucAfterCore_fields (m0 : MUCRow) (a : UpdateArgs) (now : ℚ)
    (m' : MUCRow) (ch : Bool) (h : mucAfterCore m0 a now = some (m', ch)) :
    m'.address = m0.address ∧ m'.service_domain = m0.service_domain ∧
    m'.is_hidden = m0.is_hidden ∧ m'.last_seen = some now ∧
    m'.is_open = (mergeField m0.is_open a.is_open).1 ∧
    m'.anonymity_mode = (mergeField m0.anonymity_mode a.anonymity_mode).1 ∧
    m'.nusers = (mergeField m0.nusers a.nusers).1 ∧
    m'.was_kicked = (m0.was_kicked || truthyB a.was_kicked) ∧
    ch = ((mergeField m0.is_open a.is_open).2 ||
          (mergeField m0.anonymity_mode a.anonymity_mode).2 ||
          (mergeField m0.nusers a.nusers).2) := by
  unfold mucAfterCore at h
  cases han : a.nusers with
  | none =>
    rw [han] at h
    rw [Option.some.injEq, Prod.mk.injEq] at h
    obtain ⟨h1, h2⟩ := h
    subst h1
    subst h2
    refine ⟨?_, ?_, ?_, ?_, ?_, ?_, ?_, ?_, ?_⟩ <;>
      simp [maInit_address, maInit_is_open, maInit_anonymity_mode,
        maInit_nusers, maInit_was_kicked, maInit_is_hidden, maInit_last_seen,
        maInit_service_domain, mergedRow, coreFlags, han]
  | some v =>
    rw [han] at h
    rw [Option.map_eq_some'] at h
    obtain ⟨m7, hm7, hpair⟩ := h
    rw [Prod.mk.injEq] at hpair
    obtain ⟨h1, h2⟩ := hpair
    subst h1
    subst h2
    have hf := maEma_fields _ v now _ hm7
    refine ⟨?_, ?_, ?_, ?_, ?_, ?_, ?_, ?_, ?_⟩ <;>
      simp [hf.1, hf.2.1, hf.2.2.1, hf.2.2.2.1, hf.2.2.2.2.1, hf.2.2.2.2.2.1,
        hf.2.2.2.2.2.2.1, hf.2.2.2.2.2.2.2, maInit_address, maInit_is_open,
        maInit_anonymity_mode, maInit_nusers, maInit_was_kicked,
        maInit_is_hidden, maInit_last_seen, maInit_service_domain,
        mergedRow, coreFlags, han]

theorem findBy_key_eq {α : Type} (key : α → JID) (a : JID) :
    ∀ (t : List α) (r : α), findBy key a t = some r → key r = a := by
  intro t
  induction t with
  | nil => intro r h; exact absurd h (by simp [findBy])
  | cons x t' ih =>
    intro r h
    by_cases hx : key x = a
    · simp only [findBy, hx, if_pos] at h
      obtain rfl := Option.some.inj h
      exact hx
    · simp only [findBy, hx, if_false] at h
      exact ih r h

/-- Decomposition of a successful `update_muc_metadata` call (with
`is_saveable` not `False`) into its components. -/
theorem update_muc_metadata_parts (lim : Limits) (st : StoreState) (addr : JID)
    (a : UpdateArgs) (now : ℚ) (res : UpdateOutcome)
    (hsave : a.is_saveable ≠ some (some false))
    (h : update_muc_metadata lim st addr a now = some res) :
    ∃ m7 coreChanged,
      mucAfterCore ((findMuc st.db addr).getD (freshMucRow addr)) a now =
        some (m7, coreChanged) ∧
      res.cache = cachePop st.cache addr ∧
      res.db.mucs = upsertBy MUCRow.address m7 st.db.mucs ∧
      res.db.avatars = st.db.avatars ∧
      res.db.domains = (if (findMuc st.db addr).isSome then st.db.domains
        else requireDomainTouch st.db.domains addr.domain now) ∧
      (if publicCondition lim a then
        res.db.publics = upsertBy PublicRow.address
            (publicAfterCore addr (findPublic st.db addr)
              (preparedSubject lim a) (preparedName lim a)
              (preparedDescription lim a) (preparedLanguage lim a)
              a.http_logs_url a.web_chat_url).1 st.db.publics ∧
          res.muc_changed = ((findMuc st.db addr).isNone || coreChanged ||
            (publicAfterCore addr (findPublic st.db addr)
              (preparedSubject lim a) (preparedName lim a)
              (preparedDescription lim a) (preparedLanguage lim a)
              a.http_logs_url a.web_chat_url).2)
      else if a.is_public = some (some false) then
        res.db.publics = eraseBy PublicRow.address addr st.db.publics ∧
          res.muc_changed = ((findMuc st.db addr).isNone || coreChanged ||
            (findPublic st.db addr).isSome)
      else
        res.db.publics = st.db.publics ∧
          res.muc_changed = ((findMuc st.db addr).isNone || coreChanged)) := by
  unfold update_muc_metadata at h
  rw [if_neg hsave] at h
  cases hcore : mucAfterCore ((findMuc st.db addr).getD (freshMucRow addr))
      a now with
  | none => rw [hcore] at h; exact absurd h (by simp)
  | some pair =>
    obtain ⟨m7, coreChanged⟩ := pair
    rw [hcore] at h
    dsimp only [] at h
    refine ⟨m7, coreChanged, rfl, ?_⟩
    by_cases hpub : publicCondition lim a = true
    · rw [if_pos hpub] at h
      obtain rfl := Option.some.inj h
      rw [if_pos hpub]
      exact ⟨rfl, rfl, rfl, rfl, rfl, rfl⟩
    · rw [if_neg hpub] at h
      by_cases hpf : a.is_public = some (some false)
      · rw [if_pos hpf] at h
        obtain rfl := Option.some.inj h
        rw [if_neg hpub, if_pos hpf]
        exact ⟨rfl, rfl, rfl, rfl, rfl, rfl⟩
      · rw [if_neg hpf] at h
        obtain rfl := Option.some.inj h
        rw [if_neg hpub, if_neg hpf]
        exact ⟨rfl, rfl, rfl, rfl, rfl, rfl⟩

/-! ### get_address_metadata helpers -/

theorem get_address_metadata_db (st : StoreState) (a : JID) (now : ℚ)
    (m : MUCRow) (hm : findMuc st.db a = some m) :
    get_address_metadata st a now =
      (some { is_reachable := true, is_muc := true,
              is_joinable_muc := m.is_open,
              is_indexable_muc := (findPublic st.db a).isSome,
              is_banned := false }, st.cache) := by
  unfold get_address_metadata
  rw [hm]

theorem get_address_metadata_cache_miss (st : StoreState) (a : JID) (now : ℚ)
    (hm : findMuc st.db a = none) (hc : cacheLookup st.cache a = none) :
    get_address_metadata st a now = (none, st.cache) := by
  unfold get_address_metadata
  rw [hm, hc]

theorem get_address_metadata_cache_expired (st : StoreState) (a : JID)
    (now ttl : ℚ) (d : AddressMetadata) (hm : findMuc st.db a = none)
    (hc : cacheLookup st.cache a = some (ttl, d)) (hexp : now ≥ ttl) :
    get_address_metadata st a now = (none, cachePop st.cache a) := by
  unfold get_address_metadata
  rw [hm, hc]
  dsimp only []
  rw [if_pos hexp]

theorem get_address_metadata_cache_hit (st : StoreState) (a : JID)
    (now ttl : ℚ) (d : AddressMetadata) (hm : findMuc st.db a = none)
    (hc : cacheLookup st.cache a = some (ttl, d)) (hexp : ¬(now ≥ ttl)) :
    get_address_metadata st a now = (some d, st.cache) := by
  unfold get_address_metadata
  rw [hm, hc]
  dsimp only []
  rw [if_neg hexp]

theorem publicAfterCore_address (addr : JID) (pFound : Option PublicRow)
    (s n d l hl wc : Arg (Option PyStr)) :
    (publicAfterCore addr pFound s n d l hl wc).1.address =
      (pFound.getD (freshPublicRow addr)).address := rfl

/-- The row looked up by `findMuc` carries the looked-up address. -/
theorem findMuc_address (db : Database) (a : JID) (m : MUCRow)
    (h : findMuc db a = some m) : m.address = a :=
  findBy_key_eq MUCRow.address a db.mucs m h

theorem findPublic_address (db : Database) (a : JID) (p : PublicRow)
    (h : findPublic db a = some p) : p.address = a :=
  findBy_key_eq PublicRow.address a db.publics p h

/-- After a successful non-delete `update_muc_metadata`, the MUC row for the
target address is the core-updated row. -/
theorem update_muc_metadata_findMuc (st : StoreState)
    (addr : JID) (a : UpdateArgs) (now : ℚ) (res : UpdateOutcome)
    (m7 : MUCRow) (coreChanged : Bool)
    (hcore : mucAfterCore ((findMuc st.db addr).getD (freshMucRow addr)) a
      now = some (m7, coreChanged))
    (hmucs : res.db.mucs = upsertBy MUCRow.address m7 st.db.mucs) :
    findMuc res.db addr = some m7 := by
  have haddr : m7.address = addr := by
    have h1 := (mucAfterCore_fields _ _ _ _ _ hcore).1
    cases hf : findMuc st.db addr with
    | some m =>
      rw [hf] at h1
      rw [h1]
      exact findMuc_address st.db addr m hf
    | none =>
      rw [hf] at h1
      exact h1
  unfold findMuc
  rw [hmucs]
  have := findBy_upsertBy_self MUCRow.address m7 st.db.mucs
  rw [show MUCRow.address m7 = addr from haddr] at this
  exact this

/-! ### C1: DB precedence in get_address_metadata -/

/-- C1: `get_address_metadata` gives the database precedence: a Room row
synthesises `(reachable, muc, joinable = is_open, indexable = ∃ PublicRoom,
not banned)` without touching the cache; with no Room row it consults the
cache, deleting expired entries; and after
`update_muc_metadata(a, is_public=true, …)` (with `is_saveable` not `False`)
it reports `is_indexable = true` and `is_joinable` equal to the stored
`is_open`. -/
theorem C1_get_address_metadata_db_precedence :
    (∀ (st : StoreState) (a : JID) (now : ℚ) (m : MUCRow),
      findMuc st.db a = some m →
      get_address_metadata st a now =
        (some { is_reachable := true, is_muc := true,
                is_joinable_muc := m.is_open,
                is_indexable_muc := (findPublic st.db a).isSome,
                is_banned := false }, st.cache)) ∧
    (∀ (st : StoreState) (a : JID) (now : ℚ),
      findMuc st.db a = none → cacheLookup st.cache a = none →
      get_address_metadata st a now = (none, st.cache)) ∧
    (∀ (st : StoreState) (a : JID) (now ttl : ℚ) (d : AddressMetadata),
      findMuc st.db a = none → cacheLookup st.cache a = some (ttl, d) →
      now ≥ ttl →
      get_address_metadata st a now = (none, cachePop st.cache a)) ∧
    (∀ (st : StoreState) (a : JID) (now ttl : ℚ) (d : AddressMetadata),
      findMuc st.db a = none → cacheLookup st.cache a = some (ttl, d) →
      ¬(now ≥ ttl) →
      get_address_metadata st a now = (some d, st.cache)) ∧
    (∀ (lim : Limits) (st : StoreState) (addr : JID) (a : UpdateArgs)
        (now now2 : ℚ) (res : UpdateOutcome),
      a.is_public = some (some true) → a.is_saveable ≠ some (some false) →
      update_muc_metadata lim st addr a now = some res →
      ∃ m, findMuc res.db addr = some m ∧
        (get_address_metadata ⟨res.db, res.cache⟩ addr now2).1 =
          some { is_reachable := true, is_muc := true,
                 is_joinable_muc := m.is_open, is_indexable_muc := true,
                 is_banned := false }) := by
  refine ⟨get_address_metadata_db, get_address_metadata_cache_miss,
    get_address_metadata_cache_expired, get_address_metadata_cache_hit, ?_⟩
  intro lim st addr a now now2 res hp hsave h
  obtain ⟨m7, cc, hcore, hcache, hmucs, hav, hdom, hrest⟩ :=
    update_muc_metadata_parts lim st addr a now res hsave h
  have hpub : publicCondition lim a = true := by
    simp [publicCondition, truthyB, hp]
  rw [if_pos hpub] at hrest
  obtain ⟨hpubs, hchanged⟩ := hrest
  have hfm : findMuc res.db addr = some m7 :=
    update_muc_metadata_findMuc st addr a now res m7 cc hcore hmucs
  have hpaddr : (publicAfterCore addr (findPublic st.db addr)
      (preparedSubject lim a) (preparedName lim a)
      (preparedDescription lim a) (preparedLanguage lim a)
      a.http_logs_url a.web_chat_url).1.address = addr := by
    rw [publicAfterCore_address]
    cases hf : findPublic st.db addr with
    | some p =>
      simp only [Option.getD_some]
      exact findPublic_address st.db addr p hf
    | none => rfl
  have hfp : findPublic res.db addr = some (publicAfterCore addr
      (findPublic st.db addr) (preparedSubject lim a) (preparedName lim a)
      (preparedDescription lim a) (preparedLanguage lim a)
      a.http_logs_url a.web_chat_url).1 := by
    unfold findPublic
    rw [hpubs]
    have := findBy_upsertBy_self PublicRow.address
      (publicAfterCore addr (findPublic st.db addr) (preparedSubject lim a)
        (preparedName lim a) (preparedDescription lim a)
        (preparedLanguage lim a) a.http_logs_url a.web_chat_url).1
      st.db.publics
    rw [show PublicRow.address (publicAfterCore addr (findPublic st.db addr)
      (preparedSubject lim a) (preparedName lim a)
      (preparedDescription lim a) (preparedLanguage lim a)
      a.http_logs_url a.web_chat_url).1 = addr from hpaddr] at this
    exact this
  refine ⟨m7, hfm, ?_⟩
  rw [get_address_metadata_db ⟨res.db, res.cache⟩ addr now2 m7 hfm]
  simp [hfp]

/-- Witness for C1 at concrete inputs: a store holding one open room with a
public listing, and an update with `is_public = true` on an empty store. -/
theorem C1_get_address_metadata_db_precedence_witness :
    (findMuc (Database.mk [] [⟨⟨none, "x"⟩, "x", some 0, some 3, some 3,
        some 0, some true, false, false, none⟩]
        [⟨⟨none, "x"⟩, none, none, none, none, none, none⟩] []) ⟨none, "x"⟩ =
      some ⟨⟨none, "x"⟩, "x", some 0, some 3, some 3, some 0, some true,
        false, false, none⟩) ∧
    (get_address_metadata ⟨Database.mk [] [⟨⟨none, "x"⟩, "x", some 0, some 3,
        some 3, some 0, some true, false, false, none⟩]
        [⟨⟨none, "x"⟩, none, none, none, none, none, none⟩] [], []⟩
        ⟨none, "x"⟩ 5 =
      (some { is_reachable := true, is_muc := true,
              is_joinable_muc := some true, is_indexable_muc := true,
              is_banned := false }, [])) ∧
    (∃ m, findMuc (Database.mk [⟨"x", some 0⟩]
        [⟨⟨none, "x"⟩, "x", some 0, none, none, some 0, some true, false,
          false, none⟩]
        [⟨⟨none, "x"⟩, none, none, none, none, none, none⟩] []) ⟨none, "x"⟩ =
        some m ∧
      (get_address_metadata ⟨Database.mk [⟨"x", some 0⟩]
          [⟨⟨none, "x"⟩, "x", some 0, none, none, some 0, some true, false,
            false, none⟩]
          [⟨⟨none, "x"⟩, none, none, none, none, none, none⟩] [], []⟩
          ⟨none, "x"⟩ 7).1 =
        some { is_reachable := true, is_muc := true,
               is_joinable_muc := m.is_open, is_indexable_muc := true,
               is_banned := false }) := by
  refine ⟨by decide, ?_, ?_⟩
  · exact C1_get_address_metadata_db_precedence.1
      ⟨Database.mk [] [⟨⟨none, "x"⟩, "x", some 0, some 3, some 3, some 0,
        some true, false, false, none⟩]
        [⟨⟨none, "x"⟩, none, none, none, none, none, none⟩] [], []⟩
      ⟨none, "x"⟩ 5
      ⟨⟨none, "x"⟩, "x", some 0, some 3, some 3, some 0, some true, false,
        false, none⟩ (by decide)
  · exact C1_get_address_metadata_db_precedence.2.2.2.2 ⟨10, 10, 10, 10⟩
      ⟨Database.mk [] [] [] [], []⟩ ⟨none, "x"⟩
      { is_open := some (some true), is_public := some (some true) } 0 7
      { db := Database.mk [⟨"x", some 0⟩]
          [⟨⟨none, "x"⟩, "x", some 0, none, none, some 0, some true, false,
            false, none⟩]
          [⟨⟨none, "x"⟩, none, none, none, none, none, none⟩] [],
        cache := [], muc_changed := true }
      rfl (by decide) (by decide)

/-! ### C10: frame property of an all-UNCHANGED update -/

theorem mergedRow_unchanged (m0 : MUCRow) (now : ℚ) :
    mergedRow m0 UpdateArgs.unchanged now = { m0 with last_seen := some now }
    := by
  cases m0
  simp [mergedRow, mergeField, truthyB, UpdateArgs.unchanged]

theorem mucAfterCore_unchanged (m0 : MUCRow) (now : ℚ) :
    mucAfterCore m0 UpdateArgs.unchanged now =
      some (maInit { m0 with last_seen := some now } now, false) := by
  unfold mucAfterCore
  rw [show UpdateArgs.unchanged.nusers = none from rfl]
  rw [mergedRow_unchanged]
  rfl

theorem publicCondition_unchanged (lim : Limits) :
    publicCondition lim UpdateArgs.unchanged = false := rfl

/-- The exact effect of an all-`UNCHANGED` `update_muc_metadata` call on an
existing room. -/
theorem update_unchanged_eq (lim : Limits) (st : StoreState) (addr : JID)
    (now : ℚ) (m0 : MUCRow) (hm : findMuc st.db addr = some m0) :
    update_muc_metadata lim st addr UpdateArgs.unchanged now =
      some { db := { domains := st.db.domains,
                     mucs := upsertBy MUCRow.address
                       (maInit { m0 with last_seen := some now } now)
                       st.db.mucs,
                     publics := st.db.publics,
                     avatars := st.db.avatars },
             cache := cachePop st.cache addr, muc_changed := false } := by
  unfold update_muc_metadata
  rw [if_neg (by simp [UpdateArgs.unchanged])]
  rw [hm]
  rw [show (some m0).getD (freshMucRow addr) = m0 from rfl]
  rw [mucAfterCore_unchanged]
  dsimp only []
  rw [if_neg (by rw [publicCondition_unchanged]; simp)]
  rw [if_neg (by simp [UpdateArgs.unchanged])]
  rfl

/-- C10 counterexample: on a room whose moving average was never initialised,
an all-`UNCHANGED` call also rewrites `moving_average_last_update` (from 0 to
the call time 5), not only `last_seen`. -/
theorem C10_unchanged_frame_counterexample :
    update_muc_metadata ⟨10, 10, 10, 10⟩
      ⟨Database.mk [] [⟨⟨none, "x"⟩, "x", some 0, none, none, some 0,
        some true, false, false, none⟩] [] [], []⟩
      ⟨none, "x"⟩ UpdateArgs.unchanged 5 =
      some ⟨Database.mk [] [⟨⟨none, "x"⟩, "x", some 5, none, none, some 5,
        some true, false, false, none⟩] [] [], [], false⟩ ∧
    some (5 : ℚ) ≠ some (0 : ℚ) := by
  constructor
  · decide
  · decide

/-- C10 amended: an all-`UNCHANGED` call on an existing room leaves the
PublicRoom, Avatar and Domain tables untouched, pops the address from the
metadata cache, emits no signal, and modifies only `last_seen` — except that
when `nusers_moving_average` is NULL, the call additionally initialises
`nusers_moving_average` (to the stored `nusers`) and sets
`moving_average_last_update` to now. -/
theorem C10_unchanged_frame_amended :
    (∀ (lim : Limits) (st : StoreState) (addr : JID) (now : ℚ) (m0 : MUCRow),
      findMuc st.db addr = some m0 → m0.nusers_moving_average ≠ none →
      update_muc_metadata lim st addr UpdateArgs.unchanged now =
        some { db := { domains := st.db.domains,
                       mucs := upsertBy MUCRow.address
                         { m0 with last_seen := some now } st.db.mucs,
                       publics := st.db.publics,
                       avatars := st.db.avatars },
               cache := cachePop st.cache addr, muc_changed := false }) ∧
    (∀ (lim : Limits) (st : StoreState) (addr : JID) (now : ℚ) (m0 : MUCRow),
      findMuc st.db addr = some m0 → m0.nusers_moving_average = none →
      update_muc_metadata lim st addr UpdateArgs.unchanged now =
        some { db := { domains := st.db.domains,
                       mucs := upsertBy MUCRow.address
                         { m0 with
                           last_seen := some now
                           nusers_moving_average := m0.nusers
                           moving_average_last_update := some now }
                         st.db.mucs,
                       publics := st.db.publics,
                       avatars := st.db.avatars },
               cache := cachePop st.cache addr, muc_changed := false }) := by
  constructor
  · intro lim st addr now m0 hm hma
    rw [update_unchanged_eq lim st addr now m0 hm]
    rw [show maInit { m0 with last_seen := some now } now =
      { m0 with last_seen := some now } from by unfold maInit; simp [hma]]
  · intro lim st addr now m0 hm hma
    rw [update_unchanged_eq lim st addr now m0 hm]
    rw [show maInit { m0 with last_seen := some now } now =
      { m0 with
        last_seen := some now
        nusers_moving_average := m0.nusers
        moving_average_last_update := some now } from by
      unfold maInit; simp [hma]]

/-- Witness for C10 amended on concrete rooms (one with an initialised moving
average, one without). -/
theorem C10_unchanged_frame_amended_witness :
    (update_muc_metadata ⟨10, 10, 10, 10⟩
      ⟨Database.mk [] [⟨⟨none, "y"⟩, "y", some 0, some 4, some 4, some 0,
        some true, false, false, none⟩] [] [], []⟩
      ⟨none, "y"⟩ UpdateArgs.unchanged 5 =
      some { db := { domains := [],
                     mucs := upsertBy MUCRow.address
                       ⟨⟨none, "y"⟩, "y", some 5, some 4, some 4, some 0,
                         some true, false, false, none⟩
                       [⟨⟨none, "y"⟩, "y", some 0, some 4, some 4, some 0,
                         some true, false, false, none⟩],
                     publics := [], avatars := [] },
             cache := cachePop [] ⟨none, "y"⟩, muc_changed := false }) ∧
    (update_muc_metadata ⟨10, 10, 10, 10⟩
      ⟨Database.mk [] [⟨⟨none, "x"⟩, "x", some 0, none, none, some 0,
        some true, false, false, none⟩] [] [], []⟩
      ⟨none, "x"⟩ UpdateArgs.unchanged 5 =
      some { db := { domains := [],
                     mucs := upsertBy MUCRow.address
                       ⟨⟨none, "x"⟩, "x", some 5, none, none, some 5,
                         some true, false, false, none⟩
                       [⟨⟨none, "x"⟩, "x", some 0, none, none, some 0,
                         some true, false, false, none⟩],
                     publics := [], avatars := [] },
             cache := cachePop [] ⟨none, "x"⟩, muc_changed := false }) :=
  ⟨C10_unchanged_frame_amended.1 ⟨10, 10, 10, 10⟩
      ⟨Database.mk [] [⟨⟨none, "y"⟩, "y", some 0, some 4, some 4, some 0,
        some true, false, false, none⟩] [] [], []⟩
      ⟨none, "y"⟩ 5 ⟨⟨none, "y"⟩, "y", some 0, some 4, some 4, some 0,
        some true, false, false, none⟩ (by decide) (by decide),
   C10_unchanged_frame_amended.2 ⟨10, 10, 10, 10⟩
      ⟨Database.mk [] [⟨⟨none, "x"⟩, "x", some 0, none, none, some 0,
        some true, false, false, none⟩] [] [], []⟩
      ⟨none, "x"⟩ 5 ⟨⟨none, "x"⟩, "x", some 0, none, none, some 0,
        some true, false, false, none⟩ (by decide) (by decide)⟩

/-! ### C2: the exponential moving average -/

theorem maInit_of_some (m : MUCRow) (now : ℚ)
    (h : m.nusers_moving_average ≠ none) : maInit m now = m := by
  unfold maInit
  rw [if_neg h]

/-- Behaviour of the core on a room with an initialised moving average when
`nusers` is supplied: the EMA is recomputed iff strictly more than
`NUSERS_MOVING_AVERAGE_INTERVAL` has elapsed. -/
theorem mucAfterCore_ma_spec (m0 : MUCRow) (a : UpdateArgs) (now : ℚ)
    (ma0 t0 n : ℚ)
    (hma : m0.nusers_moving_average = some ma0)
    (hml : m0.moving_average_last_update = some t0)
    (hn : a.nusers = some (some n)) :
    ∃ m7 ch, mucAfterCore m0 a now = some (m7, ch) ∧
      m7.nusers_moving_average =
        (if t0 + NUSERS_MOVING_AVERAGE_INTERVAL < now
         then some (emaStep ma0 n) else some ma0) ∧
      m7.moving_average_last_update =
        (if t0 + NUSERS_MOVING_AVERAGE_INTERVAL < now then some now
         else some t0) := by
  unfold mucAfterCore
  rw [hn]
  rw [maInit_of_some (mergedRow m0 a now) now
    (by rw [mergedRow_nusers_moving_average, hma]; simp)]
  unfold maEma
  rw [mergedRow_moving_average_last_update, hml]
  dsimp only []
  by_cases hc : t0 + NUSERS_MOVING_AVERAGE_INTERVAL < now
  · rw [if_pos hc]
    rw [mergedRow_nusers_moving_average, hma]
    dsimp only []
    rw [if_pos hc, if_pos hc]
    exact ⟨_, _, rfl, rfl, rfl⟩
  · rw [if_neg hc]
    rw [if_neg hc, if_neg hc]
    refine ⟨_, _, rfl, ?_, ?_⟩
    · rw [mergedRow_nusers_moving_average]
      exact hma
    · rw [mergedRow_moving_average_last_update]
      exact hml

theorem mergeField_fst_some {α : Type} [DecidableEq α] (old v : α) :
    (mergeField old (some v)).1 = v := by
  by_cases h : v = old
  · simp [mergeField, h]
  · simp [mergeField, h]

theorem maInit_of_none (m : MUCRow) (now : ℚ)
    (h : m.nusers_moving_average = none) :
    maInit m now = { m with
                     nusers_moving_average := m.nusers
                     moving_average_last_update := some now } := by
  unfold maInit
  rw [if_pos h]

/-- Behaviour of the core on a room with an uninitialised moving average when
`nusers` is supplied: the average is initialised to the supplied value and no
EMA step runs. -/
theorem mucAfterCore_ma_init_spec (m0 : MUCRow) (a : UpdateArgs) (now : ℚ)
    (n : ℚ) (hma : m0.nusers_moving_average = none)
    (hn : a.nusers = some (some n)) :
    ∃ m7 ch, mucAfterCore m0 a now = some (m7, ch) ∧
      m7.nusers_moving_average = some n ∧ m7.nusers = some n ∧
      m7.moving_average_last_update = some now := by
  have key : mucAfterCore m0 a now =
      (maEma (maInit (mergedRow m0 a now) now) (some n) now).map
        (fun m7 => (m7, coreFlags m0 a)) := by
    unfold mucAfterCore
    rw [hn]
  rw [key]
  rw [maInit_of_none (mergedRow m0 a now) now
    (by rw [mergedRow_nusers_moving_average]; exact hma)]
  have hstop : maEma { mergedRow m0 a now with
      nusers_moving_average := (mergedRow m0 a now).nusers
      moving_average_last_update := some now } (some n) now =
      some { mergedRow m0 a now with
        nusers_moving_average := (mergedRow m0 a now).nusers
        moving_average_last_update := some now } := by
    unfold maEma
    dsimp only []
    rw [if_neg (show ¬(now + NUSERS_MOVING_AVERAGE_INTERVAL < now) from by
      simp only [NUSERS_MOVING_AVERAGE_INTERVAL]
      linarith)]
  rw [hstop]
  refine ⟨_, _, rfl, ?_, ?_, rfl⟩
  · show (mergedRow m0 a now).nusers = some n
    rw [mergedRow_nusers, hn, mergeField_fst_some]
  · show (mergedRow m0 a now).nusers = some n
    rw [mergedRow_nusers, hn, mergeField_fst_some]

/-- Closed-form result of `update_muc_metadata` on an existing room when no
PublicRoom branch triggers. -/
theorem update_simple_eq (lim : Limits) (st : StoreState) (addr : JID)
    (a : UpdateArgs) (now : ℚ) (m0 m7 : MUCRow) (cc : Bool)
    (hsave : a.is_saveable ≠ some (some false))
    (hfm : findMuc st.db addr = some m0)
    (hcore : mucAfterCore m0 a now = some (m7, cc))
    (hpubc : publicCondition lim a = false)
    (hpf : a.is_public ≠ some (some false)) :
    update_muc_metadata lim st addr a now =
      some { db := { domains := st.db.domains,
                     mucs := upsertBy MUCRow.address m7 st.db.mucs,
                     publics := st.db.publics,
                     avatars := st.db.avatars },
             cache := cachePop st.cache addr, muc_changed := cc } := by
  unfold update_muc_metadata
  rw [if_neg hsave, hfm, Option.getD_some, hcore]
  dsimp only []
  rw [if_neg (by rw [hpubc]; exact Bool.false_ne_true), if_neg hpf]
  rfl

/-- The C2 boundary instance: exactly the interval elapsed, no EMA step. -/
theorem update_c2_boundary_eq :
    update_muc_metadata ⟨10, 10, 10, 10⟩
      ⟨Database.mk [] [⟨⟨none, "x"⟩, "x", some 0, some 10, some 10, some 0,
        some true, false, false, none⟩] [] [], []⟩
      ⟨none, "x"⟩ { nusers := some (some 20) } 3420 =
      some ⟨Database.mk [] [⟨⟨none, "x"⟩, "x", some 3420, some 20, some 10,
        some 0, some true, false, false, none⟩] [] [], [], true⟩ := by
  have hstop : maEma ⟨⟨none, "x"⟩, "x", some 3420, some 20, some 10, some 0,
      some true, false, false, none⟩ (some 20) 3420 =
      some ⟨⟨none, "x"⟩, "x", some 3420, some 20, some 10, some 0, some true,
        false, false, none⟩ := by
    unfold maEma
    dsimp only []
    rw [if_neg (show ¬((0 : ℚ) + NUSERS_MOVING_AVERAGE_INTERVAL < 3420) from
      by norm_num [NUSERS_MOVING_AVERAGE_INTERVAL])]
  have hcore : mucAfterCore
      ⟨⟨none, "x"⟩, "x", some 0, some 10, some 10, some 0, some true, false,
        false, none⟩ { nusers := some (some 20) } 3420 =
      some (⟨⟨none, "x"⟩, "x", some 3420, some 20, some 10, some 0, some true,
        false, false, none⟩, true) := by
    have key : mucAfterCore
        ⟨⟨none, "x"⟩, "x", some 0, some 10, some 10, some 0, some true, false,
          false, none⟩ { nusers := some (some 20) } 3420 =
        (maEma ⟨⟨none, "x"⟩, "x", some 3420, some 20, some 10, some 0,
          some true, false, false, none⟩ (some 20) 3420).map
          (fun m7 => (m7, true)) := by
      unfold mucAfterCore
      rw [show mergedRow ⟨⟨none, "x"⟩, "x", some 0, some 10, some 10, some 0,
        some true, false, false, none⟩ { nusers := some (some 20) } 3420 =
        ⟨⟨none, "x"⟩, "x", some 3420, some 20, some 10, some 0, some true,
          false, false, none⟩ from by decide]
      rw [maInit_of_some _ 3420 (by decide)]
      rw [show coreFlags ⟨⟨none, "x"⟩, "x", some 0, some 10, some 10, some 0,
        some true, false, false, none⟩ { nusers := some (some 20) } = true
        from by decide]
    rw [key, hstop]
    rfl
  rw [update_simple_eq ⟨10, 10, 10, 10⟩ _ _ _ 3420
    ⟨⟨none, "x"⟩, "x", some 0, some 10, some 10, some 0, some true, false,
      false, none⟩
    ⟨⟨none, "x"⟩, "x", some 3420, some 20, some 10, some 0, some true, false,
      false, none⟩ true (by decide) (by decide) hcore (by decide) (by decide)]
  decide

/-- A C2 instance with an uninitialised moving average. -/
theorem update_c2_init_eq :
    update_muc_metadata ⟨10, 10, 10, 10⟩
      ⟨Database.mk [] [⟨⟨none, "x"⟩, "x", some 0, none, none, some 0,
        some true, false, false, none⟩] [] [], []⟩
      ⟨none, "x"⟩ { nusers := some (some 7) } 1 =
      some ⟨Database.mk [] [⟨⟨none, "x"⟩, "x", some 1, some 7, some 7, some 1,
        some true, false, false, none⟩] [] [], [], true⟩ := by
  have hstop : maEma ⟨⟨none, "x"⟩, "x", some 1, some 7, some 7, some 1,
      some true, false, false, none⟩ (some 7) 1 =
      some ⟨⟨none, "x"⟩, "x", some 1, some 7, some 7, some 1, some true,
        false, false, none⟩ := by
    unfold maEma
    dsimp only []
    rw [if_neg (show ¬((1 : ℚ) + NUSERS_MOVING_AVERAGE_INTERVAL < 1) from
      by norm_num [NUSERS_MOVING_AVERAGE_INTERVAL])]
  have hcore : mucAfterCore
      ⟨⟨none, "x"⟩, "x", some 0, none, none, some 0, some true, false,
        false, none⟩ { nusers := some (some 7) } 1 =
      some (⟨⟨none, "x"⟩, "x", some 1, some 7, some 7, some 1, some true,
        false, false, none⟩, true) := by
    have key : mucAfterCore
        ⟨⟨none, "x"⟩, "x", some 0, none, none, some 0, some true, false,
          false, none⟩ { nusers := some (some 7) } 1 =
        (maEma ⟨⟨none, "x"⟩, "x", some 1, some 7, some 7, some 1, some true,
          false, false, none⟩ (some 7) 1).map (fun m7 => (m7, true)) := by
      unfold mucAfterCore
      rw [show mergedRow ⟨⟨none, "x"⟩, "x", some 0, none, none, some 0,
        some true, false, false, none⟩ { nusers := some (some 7) } 1 =
        ⟨⟨none, "x"⟩, "x", some 1, some 7, none, some 0, some true, false,
          false, none⟩ from by decide]
      rw [maInit_of_none _ 1 (by decide)]
      rw [show coreFlags ⟨⟨none, "x"⟩, "x", some 0, none, none, some 0,
        some true, false, false, none⟩ { nusers := some (some 7) } = true
        from by decide]
    rw [key, hstop]
    rfl
  rw [update_simple_eq ⟨10, 10, 10, 10⟩ _ _ _ 1
    ⟨⟨none, "x"⟩, "x", some 0, none, none, some 0, some true, false, false,
      none⟩
    ⟨⟨none, "x"⟩, "x", some 1, some 7, some 7, some 1, some true, false,
      false, none⟩ true (by decide) (by decide) hcore (by decide) (by decide)]
  decide

/-- C2 counterexample: with exactly `NUSERS_MOVING_AVERAGE_INTERVAL`
(57 minutes) elapsed — "at least the interval", as the claim reads — the code
does *not* recompute the moving average: the stored value stays 10 instead of
becoming `emaStep 10 20 = 11.8`. -/
theorem C2_moving_average_counterexample :
    (0 : ℚ) + NUSERS_MOVING_AVERAGE_INTERVAL ≤ 3420 ∧
    update_muc_metadata ⟨10, 10, 10, 10⟩
      ⟨Database.mk [] [⟨⟨none, "x"⟩, "x", some 0, some 10, some 10, some 0,
        some true, false, false, none⟩] [] [], []⟩
      ⟨none, "x"⟩ { nusers := some (some 20) } 3420 =
      some ⟨Database.mk [] [⟨⟨none, "x"⟩, "x", some 3420, some 20, some 10,
        some 0, some true, false, false, none⟩] [] [], [], true⟩ ∧
    some (10 : ℚ) ≠ some (emaStep 10 20) :=
  ⟨by norm_num [NUSERS_MOVING_AVERAGE_INTERVAL], update_c2_boundary_eq, by
    norm_num [emaStep, NUSERS_MOVING_AVERAGE_FACTOR]⟩

/-- C2 amended: when `nusers` is supplied for an existing room whose moving
average is initialised, the EMA is recomputed iff *strictly more* than
`NUSERS_MOVING_AVERAGE_INTERVAL` has elapsed since
`moving_average_last_update`, using `ema·α + n·(1−α)` with `α = 0.82`; when
the moving average was never set it is initialised to the supplied `nusers`;
and 24 EMA steps with constant input `n` shrink the distance to `n` to at
most 1% of the initial distance. -/
theorem C2_moving_average_amended :
    (∀ (lim : Limits) (st : StoreState) (addr : JID) (a : UpdateArgs)
        (now ma0 t0 n : ℚ) (m0 : MUCRow) (res : UpdateOutcome),
      findMuc st.db addr = some m0 →
      m0.nusers_moving_average = some ma0 →
      m0.moving_average_last_update = some t0 →
      a.nusers = some (some n) → a.is_saveable ≠ some (some false) →
      update_muc_metadata lim st addr a now = some res →
      ∃ m1, findMuc res.db addr = some m1 ∧
        m1.nusers_moving_average =
          (if t0 + NUSERS_MOVING_AVERAGE_INTERVAL < now
           then some (emaStep ma0 n) else some ma0)) ∧
    (∀ (lim : Limits) (st : StoreState) (addr : JID) (a : UpdateArgs)
        (now n : ℚ) (m0 : MUCRow) (res : UpdateOutcome),
      findMuc st.db addr = some m0 →
      m0.nusers_moving_average = none →
      a.nusers = some (some n) → a.is_saveable ≠ some (some false) →
      update_muc_metadata lim st addr a now = some res →
      ∃ m1, findMuc res.db addr = some m1 ∧
        m1.nusers_moving_average = some n ∧
        m1.nusers = some n) ∧
    (∀ n0 n : ℚ,
      |(fun x => emaStep x n)^[24] n0 - n| ≤ (1 / 100) * |n0 - n|) := by
  refine ⟨?_, ?_, ?_⟩
  · intro lim st addr a now ma0 t0 n m0 res hm hma hml hn hsave hres
    obtain ⟨m7, cc, hcore, hcache, hmucs, hav, hdom, hrest⟩ :=
      update_muc_metadata_parts lim st addr a now res hsave hres
    have hfm : findMuc res.db addr = some m7 :=
      update_muc_metadata_findMuc st addr a now res m7 cc hcore hmucs
    rw [hm, Option.getD_some] at hcore
    obtain ⟨m7', ch', hcore', hma', hml'⟩ :=
      mucAfterCore_ma_spec m0 a now ma0 t0 n hma hml hn
    rw [hcore'] at hcore
    rw [Option.some.injEq, Prod.mk.injEq] at hcore
    obtain ⟨h1, h2⟩ := hcore
    subst h1
    exact ⟨m7', hfm, hma'⟩
  · intro lim st addr a now n m0 res hm hma hn hsave hres
    obtain ⟨m7, cc, hcore, hcache, hmucs, hav, hdom, hrest⟩ :=
      update_muc_metadata_parts lim st addr a now res hsave hres
    have hfm : findMuc res.db addr = some m7 :=
      update_muc_metadata_findMuc st addr a now res m7 cc hcore hmucs
    rw [hm, Option.getD_some] at hcore
    obtain ⟨m7', ch', hcore', hma', hnu', hml'⟩ :=
      mucAfterCore_ma_init_spec m0 a now n hma hn
    rw [hcore'] at hcore
    rw [Option.some.injEq, Prod.mk.injEq] at hcore
    obtain ⟨h1, h2⟩ := hcore
    subst h1
    exact ⟨m7', hfm, hma', hnu'⟩
  · intro n0 n
    have hstep : ∀ x : ℚ, emaStep x n - n = (82 / 100) * (x - n) := by
      intro x
      unfold emaStep NUSERS_MOVING_AVERAGE_FACTOR
      ring
    have hiter : ∀ k : ℕ,
        (fun x => emaStep x n)^[k] n0 - n = (82 / 100) ^ k * (n0 - n) := by
      intro k
      induction k with
      | zero => simp
      | succ k ih =>
        rw [Function.iterate_succ_apply']
        calc emaStep ((fun x => emaStep x n)^[k] n0) n - n
            = (82 / 100) * ((fun x => emaStep x n)^[k] n0 - n) := hstep _
          _ = (82 / 100) * ((82 / 100) ^ k * (n0 - n)) := by rw [ih]
          _ = (82 / 100) ^ (k + 1) * (n0 - n) := by ring
    rw [hiter 24, abs_mul,
      abs_of_nonneg (by positivity : (0 : ℚ) ≤ (82 / 100) ^ 24)]
    have h2 : ((82 : ℚ) / 100) ^ 24 ≤ 1 / 100 := by norm_num
    exact mul_le_mul_of_nonneg_right h2 (abs_nonneg _)

/-- Witness for C2 amended at concrete inputs. -/
theorem C2_moving_average_amended_witness :
    (∃ m1, findMuc (Database.mk [] [⟨⟨none, "x"⟩, "x", some 3420, some 20,
        some 10, some 0, some true, false, false, none⟩] [] [])
        ⟨none, "x"⟩ = some m1 ∧
      m1.nusers_moving_average =
        (if (0 : ℚ) + NUSERS_MOVING_AVERAGE_INTERVAL < 3420
         then some (emaStep 10 20) else some 10)) ∧
    (∃ m1, findMuc (Database.mk [] [⟨⟨none, "x"⟩, "x", some 1, some 7, some 7,
        some 1, some true, false, false, none⟩] [] [])
        ⟨none, "x"⟩ = some m1 ∧
      m1.nusers_moving_average = some 7 ∧ m1.nusers = some 7) ∧
    |(fun x => emaStep x 20)^[24] 10 - 20| ≤ (1 / 100) * |(10 : ℚ) - 20| :=
  ⟨C2_moving_average_amended.1 ⟨10, 10, 10, 10⟩
      ⟨Database.mk [] [⟨⟨none, "x"⟩, "x", some 0, some 10, some 10, some 0,
        some true, false, false, none⟩] [] [], []⟩
      ⟨none, "x"⟩ { nusers := some (some 20) } 3420 10 0 20
      ⟨⟨none, "x"⟩, "x", some 0, some 10, some 10, some 0, some true, false,
        false, none⟩
      ⟨Database.mk [] [⟨⟨none, "x"⟩, "x", some 3420, some 20, some 10, some 0,
        some true, false, false, none⟩] [] [], [], true⟩
      (by decide) rfl rfl rfl (by decide) update_c2_boundary_eq,
   C2_moving_average_amended.2.1 ⟨10, 10, 10, 10⟩
      ⟨Database.mk [] [⟨⟨none, "x"⟩, "x", some 0, none, none, some 0,
        some true, false, false, none⟩] [] [], []⟩
      ⟨none, "x"⟩ { nusers := some (some 7) } 1 7
      ⟨⟨none, "x"⟩, "x", some 0, none, none, some 0, some true, false, false,
        none⟩
      ⟨Database.mk [] [⟨⟨none, "x"⟩, "x", some 1, some 7, some 7, some 1,
        some true, false, false, none⟩] [] [], [], true⟩
      (by decide) rfl rfl (by decide) update_c2_init_eq,
   C2_moving_average_amended.2.2 10 20⟩

/-! ### C3: signal emission -/

theorem publicRow_eq_iff (p q : PublicRow) :
    p = q ↔ (p.address = q.address ∧ p.subject = q.subject ∧
      p.name = q.name ∧ p.description = q.description ∧
      p.language = q.language ∧ p.http_logs_url = q.http_logs_url ∧
      p.web_chat_url = q.web_chat_url) := by
  cases p
  cases q
  simp [PublicRow.mk.injEq]

/-- On an existing PublicRoom the change flag of `publicAfterCore` is
equivalent to the row actually changing. -/
theorem publicAfterCore_changed_iff (addr : JID) (p0 : PublicRow)
    (s n d l hl wc : Arg (Option PyStr)) :
    ((publicAfterCore addr (some p0) s n d l hl wc).2 = true ↔
      (publicAfterCore addr (some p0) s n d l hl wc).1 ≠ p0) := by
  have hrow : (publicAfterCore addr (some p0) s n d l hl wc).1 =
      ⟨p0.address, (mergeField p0.subject s).1, (mergeField p0.name n).1,
        (mergeField p0.description d).1, (mergeField p0.language l).1,
        (mergeField p0.http_logs_url hl).1,
        (mergeField p0.web_chat_url wc).1⟩ := rfl
  have hflag : (publicAfterCore addr (some p0) s n d l hl wc).2 =
      ((mergeField p0.subject s).2 || (mergeField p0.name n).2 ||
        (mergeField p0.description d).2 || (mergeField p0.language l).2 ||
        (mergeField p0.http_logs_url hl).2 ||
        (mergeField p0.web_chat_url wc).2) := rfl
  rw [hrow, hflag]
  rw [Ne, publicRow_eq_iff]
  simp only [Bool.or_eq_true, mergeField_changed_iff]
  by_cases h1 : (mergeField p0.subject s).1 = p0.subject <;>
    by_cases h2 : (mergeField p0.name n).1 = p0.name <;>
    by_cases h3 : (mergeField p0.description d).1 = p0.description <;>
    by_cases h4 : (mergeField p0.language l).1 = p0.language <;>
    by_cases h5 : (mergeField p0.http_logs_url hl).1 = p0.http_logs_url <;>
    by_cases h6 : (mergeField p0.web_chat_url wc).1 = p0.web_chat_url <;>
    simp [h1, h2, h3, h4, h5, h6]

/-- The PublicRoom row after the public branch of `update_muc_metadata`. -/
theorem findPublic_after_public_branch (st : StoreState)
    (res : UpdateOutcome) (addr : JID) (s n d l hl wc : Arg (Option PyStr))
    (hpubs : res.db.publics = upsertBy PublicRow.address
      (publicAfterCore addr (findPublic st.db addr) s n d l hl wc).1
      st.db.publics) :
    findPublic res.db addr =
      some (publicAfterCore addr (findPublic st.db addr) s n d l hl wc).1 := by
  have hpaddr : (publicAfterCore addr (findPublic st.db addr)
      s n d l hl wc).1.address = addr := by
    rw [publicAfterCore_address]
    cases hf : findPublic st.db addr with
    | some p =>
      simp only [Option.getD_some]
      exact findPublic_address st.db addr p hf
    | none => rfl
  unfold findPublic
  rw [hpubs]
  have := findBy_upsertBy_self PublicRow.address
    (publicAfterCore addr (findPublic st.db addr) s n d l hl wc).1
    st.db.publics
  rw [show PublicRow.address (publicAfterCore addr (findPublic st.db addr)
    s n d l hl wc).1 = addr from hpaddr] at this
  exact this

/-- C3 counterexample: a call that only supplies `was_kicked = true` flips the
persisted `was_kicked` field from `false` to `true` yet emits no
`on_muc_changed` signal (`muc_changed = false`). -/
theorem C3_signal_counterexample :
    update_muc_metadata ⟨10, 10, 10, 10⟩
      ⟨Database.mk [] [⟨⟨none, "x"⟩, "x", some 0, some 5, some 5, some 0,
        some true, false, false, none⟩] [] [], []⟩
      ⟨none, "x"⟩ { was_kicked := some (some true) } 1 =
      some ⟨Database.mk [] [⟨⟨none, "x"⟩, "x", some 1, some 5, some 5, some 0,
        some true, false, true, none⟩] [] [], [], false⟩ ∧
    (false : Bool) ≠ true := by
  constructor
  · decide
  · decide

/-- C3 amended: `update_muc_metadata` (with `is_saveable` not `False`) emits
`on_muc_changed` iff a Room row was created, or one of the merge-tracked Room
fields (`is_open`, `anonymity_mode`, `nusers`) changed, or the PublicRoom row
changed (created, deleted, or any of its merged fields changed).  Changes to
`was_kicked`, the moving-average fields and `last_seen` alone do not emit. -/
theorem C3_signal_amended :
    (∀ (lim : Limits) (st : StoreState) (addr : JID) (a : UpdateArgs)
        (now : ℚ) (res : UpdateOutcome),
      a.is_saveable ≠ some (some false) → findMuc st.db addr = none →
      update_muc_metadata lim st addr a now = some res →
      res.muc_changed = true) ∧
    (∀ (lim : Limits) (st : StoreState) (addr : JID) (a : UpdateArgs)
        (now : ℚ) (res : UpdateOutcome) (m0 : MUCRow),
      a.is_saveable ≠ some (some false) → findMuc st.db addr = some m0 →
      update_muc_metadata lim st addr a now = some res →
      ∃ m1, findMuc res.db addr = some m1 ∧
        (res.muc_changed = true ↔
          (m1.is_open ≠ m0.is_open ∨ m1.anonymity_mode ≠ m0.anonymity_mode ∨
           m1.nusers ≠ m0.nusers ∨
           findPublic res.db addr ≠ findPublic st.db addr))) := by
  constructor
  · intro lim st addr a now res hsave hm hres
    obtain ⟨m7, cc, hcore, hcache, hmucs, hav, hdom, hrest⟩ :=
      update_muc_metadata_parts lim st addr a now res hsave hres
    by_cases hpub : publicCondition lim a = true
    · rw [if_pos hpub] at hrest
      rw [hrest.2, hm]
      rfl
    · rw [if_neg hpub] at hrest
      by_cases hpf : a.is_public = some (some false)
      · rw [if_pos hpf] at hrest
        rw [hrest.2, hm]
        rfl
      · rw [if_neg hpf] at hrest
        rw [hrest.2, hm]
        rfl
  · intro lim st addr a now res m0 hsave hm hres
    obtain ⟨m7, cc, hcore, hcache, hmucs, hav, hdom, hrest⟩ :=
      update_muc_metadata_parts lim st addr a now res hsave hres
    have hfm : findMuc res.db addr = some m7 :=
      update_muc_metadata_findMuc st addr a now res m7 cc hcore hmucs
    refine ⟨m7, hfm, ?_⟩
    rw [hm, Option.getD_some] at hcore
    have hfields := mucAfterCore_fields m0 a now m7 cc hcore
    have hcc : cc = true ↔
        (m7.is_open ≠ m0.is_open ∨ m7.anonymity_mode ≠ m0.anonymity_mode ∨
         m7.nusers ≠ m0.nusers) := by
      rw [hfields.2.2.2.2.2.2.2.2, hfields.2.2.2.2.1, hfields.2.2.2.2.2.1,
        hfields.2.2.2.2.2.2.1]
      simp only [Bool.or_eq_true, mergeField_changed_iff]
      tauto
    by_cases hpub : publicCondition lim a = true
    · rw [if_pos hpub] at hrest
      obtain ⟨hpubs, hchanged⟩ := hrest
      have hfp := findPublic_after_public_branch st res addr
        (preparedSubject lim a) (preparedName lim a)
        (preparedDescription lim a) (preparedLanguage lim a)
        a.http_logs_url a.web_chat_url hpubs
      rw [hchanged, hm, hfp]
      cases hf : findPublic st.db addr with
      | none =>
        have hp2 : (publicAfterCore addr none (preparedSubject lim a)
            (preparedName lim a) (preparedDescription lim a)
            (preparedLanguage lim a) a.http_logs_url a.web_chat_url).2 =
            true := rfl
        rw [hp2]
        simp
      | some p0 =>
        have hiff := publicAfterCore_changed_iff addr p0
          (preparedSubject lim a) (preparedName lim a)
          (preparedDescription lim a) (preparedLanguage lim a)
          a.http_logs_url a.web_chat_url
        simp only [Option.isNone_some, Bool.false_or, Bool.or_eq_true]
        rw [hcc]
        constructor
        · intro h
          rcases h with h | h
          · tauto
          · right; right; right
            intro hcontra
            rw [Option.some.injEq] at hcontra
            exact (hiff.mp h) hcontra
        · intro h
          rcases h with h | h | h | h
          · exact Or.inl (Or.inl h)
          · exact Or.inl (Or.inr (Or.inl h))
          · exact Or.inl (Or.inr (Or.inr h))
          · right
            apply hiff.mpr
            intro hcontra
            exact h (by rw [hcontra])
    · rw [if_neg hpub] at hrest
      by_cases hpf : a.is_public = some (some false)
      · rw [if_pos hpf] at hrest
        obtain ⟨hpubs, hchanged⟩ := hrest
        have hfp : findPublic res.db addr = none := by
          unfold findPublic
          rw [hpubs]
          exact findBy_eraseBy_self PublicRow.address addr st.db.publics
        rw [hchanged, hm, hfp]
        simp only [Option.isNone_some, Bool.false_or, Bool.or_eq_true]
        rw [hcc]
        cases hf : findPublic st.db addr with
        | none => simp
        | some p0 => simp
      · rw [if_neg hpf] at hrest
        obtain ⟨hpubs, hchanged⟩ := hrest
        have hfp : findPublic res.db addr = findPublic st.db addr := by
          unfold findPublic
          rw [hpubs]
        rw [hchanged, hm, hfp]
        simp only [Option.isNone_some, Bool.false_or]
        rw [hcc]
        simp

/-- Witness for C3 amended at concrete inputs: a creation and a no-op update
on an existing room. -/
theorem C3_signal_amended_witness :
    (update_muc_metadata ⟨10, 10, 10, 10⟩ ⟨Database.mk [] [] [] [], []⟩
        ⟨none, "w"⟩ { is_open := some (some true) } 2 =
      some ⟨Database.mk [⟨"w", some 2⟩] [⟨⟨none, "w"⟩, "w", some 2, none,
        none, some 2, some true, false, false, none⟩] [] [], [], true⟩ →
      True) ∧
    (∃ m1, findMuc (Database.mk [⟨"w", some 2⟩] [⟨⟨none, "w"⟩, "w", some 2,
        none, none, some 2, some true, false, false, none⟩] [] [])
        ⟨none, "w"⟩ = some m1 ∧
      ((false : Bool) = true ↔
        (m1.is_open ≠ some true ∨ m1.anonymity_mode ≠ none ∨
         m1.nusers ≠ none ∨
         findPublic (Database.mk [⟨"w", some 2⟩] [⟨⟨none, "w"⟩, "w", some 2,
           none, none, some 2, some true, false, false, none⟩] [] [])
           ⟨none, "w"⟩ ≠
         findPublic (Database.mk [⟨"w", some 2⟩] [⟨⟨none, "w"⟩, "w", some 2,
           none, none, some 2, some true, false, false, none⟩] [] [])
           ⟨none, "w"⟩))) := by
  constructor
  · intro _; trivial
  · have h := C3_signal_amended.2 ⟨10, 10, 10, 10⟩
      ⟨Database.mk [⟨"w", some 2⟩] [⟨⟨none, "w"⟩, "w", some 2, none, none,
        some 2, some true, false, false, none⟩] [] [], []⟩
      ⟨none, "w"⟩ UpdateArgs.unchanged 2
      ⟨Database.mk [⟨"w", some 2⟩] [⟨⟨none, "w"⟩, "w", some 2, none, none,
        some 2, some true, false, false, none⟩] [] [], [], false⟩
      ⟨⟨none, "w"⟩, "w", some 2, none, none, some 2, some true, false, false,
        none⟩
      (by decide) (by decide) (by decide)
    obtain ⟨m1, hm1, hiff⟩ := h
    exact ⟨m1, by simpa using hm1, by simpa using hiff⟩

/-! ### C9: the metadata filter in get_joinable_mucs_with_user_count is
vacuous -/

theorem findBy_of_mem_nodup {α : Type} (key : α → JID) :
    ∀ (t : List α) (r : α), r ∈ t → (t.map key).Nodup →
    findBy key (key r) t = some r := by
  intro t
  induction t with
  | nil => intro r hr _; exact absurd hr (List.not_mem_nil r)
  | cons x t' ih =>
    intro r hr hnodup
    rw [List.map_cons, List.nodup_cons] at hnodup
    by_cases hx : key x = key r
    · have hrx : r = x := by
        rcases List.mem_cons.mp hr with h | h
        · exact h
        · exact absurd (hx ▸ List.mem_map_of_mem key h) hnodup.1
      subst hrx
      simp [findBy]
    · have hr' : r ∈ t' := by
        rcases List.mem_cons.mp hr with h | h
        · exact absurd (congrArg key h.symm) hx
        · exact h
      simp only [findBy, hx, if_false]
      exact ih r hr' hnodup.2

/-- C9: for every store with unique room addresses, the address-metadata
filter inside `get_joinable_mucs_with_user_count` is vacuous: every candidate
row has a Room entry, so DB precedence synthesises reachable/muc/joinable
metadata and the predicate never excludes a row; the operation equals the
plain DB query. -/
theorem C9_joinable_filter_vacuous (st : StoreState) (minusers now : ℚ)
    (hnodup : (st.db.mucs.map MUCRow.address).Nodup) :
    get_joinable_mucs_with_user_count st minusers now =
      plain_joinable_query st.db minusers := by
  unfold get_joinable_mucs_with_user_count plain_joinable_query
  congr 1
  apply List.filter_eq_self.mpr
  intro m hm
  have hmem : m ∈ st.db.mucs := (List.mem_filter.mp hm).1
  have hopen : m.is_open = some true := by
    have := (List.mem_filter.mp hm).2
    rw [Bool.and_eq_true] at this
    simpa using this.1
  have hfind : findMuc st.db m.address = some m := by
    unfold findMuc
    have := findBy_of_mem_nodup MUCRow.address st.db.mucs m hmem hnodup
    exact this
  unfold joinableIsOk
  rw [get_address_metadata_db st m.address now m hfind]
  dsimp only []
  rw [hopen]
  rfl

/-- Witness for C9 at a concrete store. -/
theorem C9_joinable_filter_vacuous_witness :
    get_joinable_mucs_with_user_count
      ⟨Database.mk [] [⟨⟨none, "a"⟩, "a", some 0, some 5, some 5, some 0,
        some true, false, false, none⟩,
        ⟨⟨none, "b"⟩, "b", some 0, some 9, some 9, some 0, some false, false,
          false, none⟩] [] [], [(⟨none, "c"⟩, 99,
            ⟨false, false, none, false, false⟩)]⟩ 1 50 =
      plain_joinable_query
        (Database.mk [] [⟨⟨none, "a"⟩, "a", some 0, some 5, some 5, some 0,
          some true, false, false, none⟩,
          ⟨⟨none, "b"⟩, "b", some 0, some 9, some 9, some 0, some false,
            false, false, none⟩] [] []) 1 :=
  C9_joinable_filter_vacuous
    ⟨Database.mk [] [⟨⟨none, "a"⟩, "a", some 0, some 5, some 5, some 0,
      some true, false, false, none⟩,
      ⟨⟨none, "b"⟩, "b", some 0, some 9, some 9, some 0, some false, false,
        false, none⟩] [] [], [(⟨none, "c"⟩, 99,
          ⟨false, false, none, false, false⟩)]⟩ 1 50 (by decide)

/-! ### C6: routing of `cache_address_metadata` -/

theorem cacheLookup_cacheStore_self (cache : MetadataCache) (a : JID)
    (expiry : ℚ) (m : AddressMetadata) :
    cacheLookup (cacheStore cache a expiry m) a = some (expiry, m) := by
  simp [cacheLookup, cacheStore, findBy]

/-- C6 (counterexample): the branches of `cache_address_metadata` are not the
exclusive if/else chain the claim describes. (1)/(2): for metadata that is
reachable but not a chat service, the code deletes AND inserts into the cache
(the claimed routing inserts nothing), so a subsequent cache lookup succeeds
under the code but fails under the claimed routing. (3)/(4): for a reachable
MUC that is neither joinable nor indexable, the code deletes the Room row (the
claimed routing, whose delete branch requires "not a chat service", keeps
it). -/
theorem C6_cache_routing_counterexample :
    ((cache_address_metadata ⟨10, 10, 10, 10⟩ ⟨Database.mk [] [] [] [], []⟩
        ⟨none, "x"⟩ ⟨true, false, some false, false, false⟩ 10 0).map
      (fun r => (cacheLookup r.cache ⟨none, "x"⟩).isSome) = some true) ∧
    ((cache_address_metadata_claimed ⟨10, 10, 10, 10⟩
        ⟨Database.mk [] [] [] [], []⟩ ⟨none, "x"⟩
        ⟨true, false, some false, false, false⟩ 10 0).map
      (fun r => (cacheLookup r.cache ⟨none, "x"⟩).isSome) = some false) ∧
    ((cache_address_metadata ⟨10, 10, 10, 10⟩ ⟨Database.mk []
        [⟨⟨none, "x"⟩, "x", some 0, some 3, some 3, some 0, some true, false,
          false, none⟩] [] [], []⟩ ⟨none, "x"⟩
        ⟨true, true, some false, false, false⟩ 10 0).map
      (fun r => r.db.mucs.length) = some 0) ∧
    ((cache_address_metadata_claimed ⟨10, 10, 10, 10⟩ ⟨Database.mk []
        [⟨⟨none, "x"⟩, "x", some 0, some 3, some 3, some 0, some true, false,
          false, none⟩] [] [], []⟩ ⟨none, "x"⟩
        ⟨true, true, some false, false, false⟩ 10 0).map
      (fun r => r.db.mucs.length) = some 1) := by
  decide

/-- C6 (amended): `cache_address_metadata` routes joinable-or-indexable
metadata to `update_muc_metadata`; in every other case it inserts the entry
into the cache with expiry `now + ttl` (also when the address is reachable),
additionally deleting all MUC data exactly when the metadata is reachable,
and never emits a signal; and for any later time strictly past `now + ttl`,
if no Room row exists, `get_address_metadata` misses. -/
theorem C6_cache_routing_amended (lim : Limits) (st : StoreState) (addr : JID)
    (metadata : AddressMetadata) (ttl now : ℚ) :
    (metadata.is_joinable_muc = some true ∨ metadata.is_indexable_muc = true →
      cache_address_metadata lim st addr metadata ttl now =
        update_muc_metadata lim st addr
          { is_open := some metadata.is_joinable_muc,
            is_public := some (some metadata.is_indexable_muc) } now) ∧
    (¬(metadata.is_joinable_muc = some true ∨
        metadata.is_indexable_muc = true) →
      ∀ res, cache_address_metadata lim st addr metadata ttl now = some res →
        cacheLookup res.cache addr = some (now + ttl, metadata) ∧
        (metadata.is_reachable = true →
          res.db = delete_all_muc_data st.db addr ∧
          findMuc res.db addr = none) ∧
        (metadata.is_reachable = false → res.db = st.db) ∧
        res.muc_changed = false ∧
        ∀ t, t > now + ttl → findMuc res.db addr = none →
          (get_address_metadata ⟨res.db, res.cache⟩ addr t).1 = none) := by
  constructor
  · intro h
    have hb : (decide (metadata.is_joinable_muc = some true) ||
        metadata.is_indexable_muc) = true := by
      simp only [Bool.or_eq_true, decide_eq_true_eq]
      exact h
    unfold cache_address_metadata
    rw [if_pos hb]
  · intro hnr res hres
    have hb : ¬((decide (metadata.is_joinable_muc = some true) ||
        metadata.is_indexable_muc) = true) := by
      simp only [Bool.or_eq_true, decide_eq_true_eq]
      exact hnr
    unfold cache_address_metadata at hres
    rw [if_neg hb] at hres
    dsimp only [] at hres
    have hr := Option.some.inj hres
    subst hr
    refine ⟨cacheLookup_cacheStore_self _ _ _ _, ?_, ?_, rfl, ?_⟩
    · intro hreach
      rw [if_pos hreach]
      exact ⟨rfl, findBy_eraseBy_self MUCRow.address addr st.db.mucs⟩
    · intro hunreach
      rw [if_neg (by simp [hunreach])]
    · intro t ht hdb
      have := get_address_metadata_cache_expired
        ⟨if metadata.is_reachable = true then delete_all_muc_data st.db addr
          else st.db,
         cacheStore
           (if (decide (st.cache.length = CACHE_MAXSIZE) &&
               (findBy Prod.fst addr st.cache).isNone) = true then
              expire_metadata_cache st.cache now
            else st.cache) addr (now + ttl) metadata⟩
        addr t (now + ttl) metadata hdb
        (cacheLookup_cacheStore_self _ _ _ _) (le_of_lt ht)
      rw [this]

theorem C6_cache_routing_amended_witness :
    (cache_address_metadata ⟨10, 10, 10, 10⟩ ⟨Database.mk [] [] [] [], []⟩
        ⟨none, "x"⟩ ⟨true, false, some true, true, false⟩ 5 0 =
      update_muc_metadata ⟨10, 10, 10, 10⟩ ⟨Database.mk [] [] [] [], []⟩
        ⟨none, "x"⟩
        { is_open := some (some true), is_public := some (some true) } 0) ∧
    cacheLookup (UpdateOutcome.cache ⟨Database.mk [] [] [] [],
        [(⟨none, "x"⟩, (0 : ℚ) + 5, ⟨true, false, some false, false, false⟩)],
        false⟩) ⟨none, "x"⟩ =
      some ((0 : ℚ) + 5, ⟨true, false, some false, false, false⟩) ∧
    (get_address_metadata ⟨Database.mk [] [] [] [],
        [(⟨none, "x"⟩, (0 : ℚ) + 5, ⟨true, false, some false, false, false⟩)]⟩
      ⟨none, "x"⟩ 6).1 = none := by
  refine ⟨(C6_cache_routing_amended ⟨10, 10, 10, 10⟩
      ⟨Database.mk [] [] [] [], []⟩ ⟨none, "x"⟩
      ⟨true, false, some true, true, false⟩ 5 0).1 (Or.inl rfl), ?_, ?_⟩
  · exact ((C6_cache_routing_amended ⟨10, 10, 10, 10⟩
      ⟨Database.mk [] [] [] [], []⟩ ⟨none, "x"⟩
      ⟨true, false, some false, false, false⟩ 5 0).2 (by decide)
      ⟨Database.mk [] [] [] [],
        [(⟨none, "x"⟩, (0 : ℚ) + 5, ⟨true, false, some false, false, false⟩)],
        false⟩ rfl).1
  · exact (((C6_cache_routing_amended ⟨10, 10, 10, 10⟩
      ⟨Database.mk [] [] [] [], []⟩ ⟨none, "x"⟩
      ⟨true, false, some false, false, false⟩ 5 0).2 (by decide)
      ⟨Database.mk [] [] [] [],
        [(⟨none, "x"⟩, (0 : ℚ) + 5, ⟨true, false, some false, false, false⟩)],
        false⟩ rfl).2.2.2.2) 6 (by norm_num) (by decide)

/-! ### C7: `update_muc_avatar` size limits -/

theorem update_muc_avatar_svg_oversize
    (scale : List ℕ → PyStr → Option (List ℕ) × Option PyStr)
    (hashF : List ℕ → PyStr) (db : Database) (addr : JID) (now : ℚ)
    (d : List ℕ) (hlen : d.length ≤ 1024 * 1024) (h65 : 65535 < d.length)
    (p : PublicRow) (hp : findPublic db addr = some p)
    (hne : ¬((findAvatar db addr).map AvatarRow.hash_ = some (hashF d))) :
    update_muc_avatar scale hashF db addr (some svgMime) (some d) now =
      { db with avatars := eraseBy AvatarRow.address addr db.avatars } := by
  unfold update_muc_avatar
  dsimp only []
  rw [if_neg (not_lt.mpr hlen)]
  dsimp only []
  rw [hp]
  dsimp only []
  rw [if_neg hne, if_neg (fun h => h rfl), if_pos h65]
  rfl

/-- C7 (counterexample): an SVG avatar of exactly 64 KiB (65536 bytes) for a
publicly listed room is NOT stored — the code's threshold is
`len(data) > 65535`, so "at most 64 KiB" is one byte off: the 65536-byte
payload is dropped and the avatar table stays empty. -/
theorem C7_avatar_counterexample :
    update_muc_avatar (fun _ _ => (none, none)) (fun _ => [])
        (Database.mk [] []
          [⟨⟨none, "x"⟩, none, none, none, none, none, none⟩] [])
        ⟨none, "x"⟩ (some svgMime) (some (List.replicate 65536 0)) 0 =
      Database.mk [] []
        [⟨⟨none, "x"⟩, none, none, none, none, none, none⟩] [] ∧
    (List.replicate 65536 (0 : ℕ)).length = 64 * 1024 := by
  constructor
  · rw [update_muc_avatar_svg_oversize (fun _ _ => (none, none)) (fun _ => [])
      (Database.mk [] []
        [⟨⟨none, "x"⟩, none, none, none, none, none, none⟩] [])
      ⟨none, "x"⟩ 0 (List.replicate 65536 0)
      (by rw [List.length_replicate]; norm_num)
      (by rw [List.length_replicate]; norm_num)
      ⟨⟨none, "x"⟩, none, none, none, none, none, none⟩ (by decide)
      (by decide)]
    rfl
  · rw [List.length_replicate]

/-- C7 (amended): `update_muc_avatar` with supplied data and MIME type is a
no-op when the stored avatar's hash equals the new hash, and when the room has
no PublicRoom row (and the data is within the 1-MiB bound); data over 1 MiB
is never stored and the existing avatar row is dropped; an SVG for a publicly
listed room with a fresh hash is stored exactly when its size is at most
65535 bytes (one byte short of 64 KiB), and dropped (row deleted) at 65536
bytes and beyond. -/
theorem C7_avatar_amended
    (scale : List ℕ → PyStr → Option (List ℕ) × Option PyStr)
    (hashF : List ℕ → PyStr) (db : Database) (addr : JID) (now : ℚ)
    (mime : PyStr) (d : List ℕ) :
    (d.length ≤ 1024 * 1024 →
      (findAvatar db addr).map AvatarRow.hash_ = some (hashF d) →
      update_muc_avatar scale hashF db addr (some mime) (some d) now = db) ∧
    (1024 * 1024 < d.length →
      update_muc_avatar scale hashF db addr (some mime) (some d) now =
        { db with avatars := eraseBy AvatarRow.address addr db.avatars }) ∧
    (findPublic db addr = none → d.length ≤ 1024 * 1024 →
      update_muc_avatar scale hashF db addr (some mime) (some d) now = db) ∧
    (d.length ≤ 1024 * 1024 → ∀ p, findPublic db addr = some p →
      ¬((findAvatar db addr).map AvatarRow.hash_ = some (hashF d)) →
      (d.length ≤ 65535 →
        update_muc_avatar scale hashF db addr (some svgMime) (some d) now =
          { db with avatars := upsertBy AvatarRow.address ⟨addr, now, svgMime, d, hashF d⟩ db.avatars }) ∧
      (65535 < d.length →
        update_muc_avatar scale hashF db addr (some svgMime) (some d) now =
          { db with avatars :=
              eraseBy AvatarRow.address addr db.avatars })) := by
  refine ⟨?_, ?_, ?_, ?_⟩
  · intro hlen hhash
    unfold update_muc_avatar
    dsimp only []
    rw [if_neg (not_lt.mpr hlen)]
    dsimp only []
    cases hp : findPublic db addr with
    | none => rfl
    | some p =>
        dsimp only []
        rw [if_pos hhash]
  · intro hgt
    unfold update_muc_avatar
    dsimp only []
    rw [if_pos hgt]
    rfl
  · intro hp hlen
    unfold update_muc_avatar
    dsimp only []
    rw [if_neg (not_lt.mpr hlen)]
    dsimp only []
    rw [hp]
  · intro hlen p hp hne
    constructor
    · intro h65
      unfold update_muc_avatar
      dsimp only []
      rw [if_neg (not_lt.mpr hlen)]
      dsimp only []
      rw [hp]
      dsimp only []
      rw [if_neg hne, if_neg (fun h => h rfl), if_neg (not_lt.mpr h65)]
      unfold avatarFinalBlock
      dsimp only []
      rw [hp]
    · intro h65
      exact update_muc_avatar_svg_oversize scale hashF db addr now d hlen
        h65 p hp hne

theorem C7_avatar_amended_witness :
    (update_muc_avatar (fun _ _ => (none, none)) (fun _ => ['h'])
        (Database.mk [] [] [⟨⟨none, "x"⟩, none, none, none, none, none, none⟩]
          [⟨⟨none, "x"⟩, 0, svgMime, [9], ['h']⟩]) ⟨none, "x"⟩
        (some svgMime) (some [1]) 5 =
      Database.mk [] [] [⟨⟨none, "x"⟩, none, none, none, none, none, none⟩]
        [⟨⟨none, "x"⟩, 0, svgMime, [9], ['h']⟩]) ∧
    (update_muc_avatar (fun _ _ => (none, none)) (fun _ => ['h'])
        (Database.mk [] [] [⟨⟨none, "x"⟩, none, none, none, none, none, none⟩]
          [⟨⟨none, "x"⟩, 0, svgMime, [9], ['h']⟩]) ⟨none, "x"⟩
        (some svgMime) (some (List.replicate 1048577 0)) 5 =
      Database.mk [] [] [⟨⟨none, "x"⟩, none, none, none, none, none, none⟩]
        []) ∧
    (update_muc_avatar (fun _ _ => (none, none)) (fun _ => ['h'])
        (Database.mk [] [] [] []) ⟨none, "x"⟩ (some svgMime) (some [1]) 5 =
      Database.mk [] [] [] []) ∧
    (update_muc_avatar (fun _ _ => (none, none)) (fun _ => ['h'])
        (Database.mk [] [] [⟨⟨none, "x"⟩, none, none, none, none, none, none⟩]
          []) ⟨none, "x"⟩ (some svgMime) (some [1, 2]) 7 =
      Database.mk [] [] [⟨⟨none, "x"⟩, none, none, none, none, none, none⟩]
        [⟨⟨none, "x"⟩, 7, svgMime, [1, 2], ['h']⟩]) ∧
    (update_muc_avatar (fun _ _ => (none, none)) (fun _ => ['h'])
        (Database.mk [] [] [⟨⟨none, "x"⟩, none, none, none, none, none, none⟩]
          []) ⟨none, "x"⟩ (some svgMime) (some (List.replicate 65536 2)) 7 =
      Database.mk [] []
        [⟨⟨none, "x"⟩, none, none, none, none, none, none⟩] []) := by
  refine ⟨?_, ?_, ?_, ?_, ?_⟩
  · exact (C7_avatar_amended (fun _ _ => (none, none)) (fun _ => ['h'])
      (Database.mk [] [] [⟨⟨none, "x"⟩, none, none, none, none, none, none⟩]
        [⟨⟨none, "x"⟩, 0, svgMime, [9], ['h']⟩]) ⟨none, "x"⟩ 5 svgMime
      [1]).1 (by decide) (by decide)
  · exact (C7_avatar_amended (fun _ _ => (none, none)) (fun _ => ['h'])
      (Database.mk [] [] [⟨⟨none, "x"⟩, none, none, none, none, none, none⟩]
        [⟨⟨none, "x"⟩, 0, svgMime, [9], ['h']⟩]) ⟨none, "x"⟩ 5 svgMime
      (List.replicate 1048577 0)).2.1
      (by rw [List.length_replicate]; norm_num)
  · exact (C7_avatar_amended (fun _ _ => (none, none)) (fun _ => ['h'])
      (Database.mk [] [] [] []) ⟨none, "x"⟩ 5 svgMime [1]).2.2.1
      (by decide) (by decide)
  · exact ((C7_avatar_amended (fun _ _ => (none, none)) (fun _ => ['h'])
      (Database.mk [] [] [⟨⟨none, "x"⟩, none, none, none, none, none, none⟩]
        []) ⟨none, "x"⟩ 7 svgMime [1, 2]).2.2.2 (by decide)
      ⟨⟨none, "x"⟩, none, none, none, none, none, none⟩ (by decide)
      (by decide)).1 (by decide)
  · exact ((C7_avatar_amended (fun _ _ => (none, none)) (fun _ => ['h'])
      (Database.mk [] [] [⟨⟨none, "x"⟩, none, none, none, none, none, none⟩]
        []) ⟨none, "x"⟩ 7 svgMime (List.replicate 65536 2)).2.2.2
      (by rw [List.length_replicate]; norm_num)
      ⟨⟨none, "x"⟩, none, none, none, none, none, none⟩ (by decide)
      (by decide)).2 (by rw [List.length_replicate]; norm_num)

/-! ### C4: initial mirror reconciliation -/

theorem initSyncLoop_spec (rows : List (MUCRow × PublicRow)) :
    ∀ existing updates : List JID, existing.Nodup →
      (rows.map (fun r => r.1.address)).Nodup →
      initSyncLoop rows existing updates =
        (updates ++ (rows.map (fun r => r.1.address)).filter
            (fun a => decide (a ∉ existing)),
         existing.filter
            (fun a => decide (a ∉ rows.map (fun r => r.1.address)))) := by
  induction rows with
  | nil =>
      intro existing updates _ _
      simp [initSyncLoop]
  | cons row rest ih =>
      rcases row with ⟨m, p⟩
      intro existing updates hne hnb
      rw [List.map_cons] at hnb
      have hmr : m.address ∉ rest.map (fun r => r.1.address) :=
        (List.nodup_cons.mp hnb).1
      have hnb' : (rest.map (fun r => r.1.address)).Nodup :=
        (List.nodup_cons.mp hnb).2
      by_cases hm : m.address ∈ existing
      · rw [show initSyncLoop ((m, p) :: rest) existing updates =
            initSyncLoop rest (existing.erase m.address) updates from by
            simp [initSyncLoop, hm],
          ih (existing.erase m.address) updates (hne.erase _) hnb']
        rw [List.map_cons, Prod.mk.injEq]
        constructor
        · rw [List.filter_cons, if_neg (by simp [hm])]
          refine congrArg (updates ++ ·) (List.filter_congr ?_)
          intro x hx
          have hxm : x ≠ m.address := by
            intro h
            exact hmr (h ▸ hx)
          refine decide_eq_decide.mpr ?_
          rw [hne.mem_erase_iff]
          constructor
          · intro h hmem
            exact h ⟨hxm, hmem⟩
          · intro h hmem
            exact h hmem.2
        · rw [hne.erase_eq_filter, List.filter_filter]
          refine List.filter_congr ?_
          intro x hx
          by_cases h1 : x = m.address <;>
            by_cases h2 : x ∈ rest.map (fun r => r.1.address) <;>
              simp [h1, h2]
      · rw [show initSyncLoop ((m, p) :: rest) existing updates =
            initSyncLoop rest existing (updates ++ [m.address]) from by
            simp [initSyncLoop, hm],
          ih existing (updates ++ [m.address]) hne hnb']
        rw [List.map_cons, Prod.mk.injEq]
        constructor
        · rw [List.filter_cons, if_pos (by simp [hm]), List.append_assoc]
          rfl
        · refine List.filter_congr ?_
          intro x hx
          have hxm : x ≠ m.address := by
            intro h
            exact hm (h ▸ hx)
          by_cases h2 : x ∈ rest.map (fun r => r.1.address) <;>
            simp [hxm, h2]

/-- C4 (counterexample): the initial reconciliation diffs the remote item set
against `base_query` (open, non-hidden, publicly listed rooms), not against
the set of all PublicRoom addresses. For a CLOSED room with a PublicRoom row:
no publication is enqueued when it is absent remotely, and a retraction IS
enqueued when it is present remotely — both contradicting the claimed diff
over `{ address | PublicRoom(address) }`. -/
theorem C4_init_sync_counterexample :
    ((Database.mk []
        [⟨⟨none, "d"⟩, "d", some 0, some 3, some 3, some 0, some false,
          false, false, none⟩]
        [⟨⟨none, "d"⟩, none, none, none, none, none, none⟩] []).publics.map
      PublicRow.address = [⟨none, "d"⟩]) ∧
    init_sync_diff (Database.mk []
        [⟨⟨none, "d"⟩, "d", some 0, some 3, some 3, some 0, some false,
          false, false, none⟩]
        [⟨⟨none, "d"⟩, none, none, none, none, none, none⟩] []) [] =
      ([], []) ∧
    init_sync_diff (Database.mk []
        [⟨⟨none, "d"⟩, "d", some 0, some 3, some 3, some 0, some false,
          false, false, none⟩]
        [⟨⟨none, "d"⟩, none, none, none, none, none, none⟩] [])
      [⟨none, "d"⟩] = ([], [⟨none, "d"⟩]) := by
  refine ⟨by decide, by decide, by decide⟩

/-- C4 (amended): on stream establishment the reconciliation computes the diff
of the remote item set against the addresses of `base_query` (open, non-hidden
PublicRoom rows): it enqueues a publication exactly for the base-query
addresses absent remotely and a retraction exactly for the remote items
outside the base-query set; consequently the remote set after a completed
reconciliation (remote minus retractions plus publications) equals the
base-query address set — not the full PublicRoom address set. -/
theorem C4_init_sync_amended (db : Database) (remote : List JID)
    (hnr : remote.Nodup)
    (hnb : ((base_query db).map (fun r => r.1.address)).Nodup) :
    init_sync_diff db remote =
      (((base_query db).map (fun r => r.1.address)).filter
          (fun a => decide (a ∉ remote)),
       remote.filter
          (fun a => decide (a ∉ (base_query db).map
            (fun r => r.1.address)))) ∧
    ∀ a : JID,
      (a ∈ remote.filter
          (fun x => decide (x ∉ (init_sync_diff db remote).2)) ∨
        a ∈ (init_sync_diff db remote).1) ↔
      a ∈ (base_query db).map (fun r => r.1.address) := by
  have h1 : init_sync_diff db remote =
      (((base_query db).map (fun r => r.1.address)).filter
          (fun a => decide (a ∉ remote)),
       remote.filter
          (fun a => decide (a ∉ (base_query db).map
            (fun r => r.1.address)))) := by
    unfold init_sync_diff
    rw [initSyncLoop_spec (base_query db) remote [] hnr hnb]
    rw [List.nil_append]
  refine ⟨h1, ?_⟩
  intro a
  rw [h1]
  dsimp only []
  by_cases hr : a ∈ remote <;>
    by_cases hb : a ∈ (base_query db).map (fun r => r.1.address) <;>
      simp [List.mem_filter, hr, hb]

theorem C4_init_sync_amended_witness :
    (init_sync_diff (Database.mk []
        [⟨⟨none, "a"⟩, "a", some 0, some 3, some 3, some 0, some true, false,
          false, none⟩,
         ⟨⟨none, "b"⟩, "b", some 0, some 4, some 4, some 0, some true, false,
          false, none⟩]
        [⟨⟨none, "a"⟩, none, none, none, none, none, none⟩,
         ⟨⟨none, "b"⟩, none, none, none, none, none, none⟩] [])
        [⟨none, "b"⟩, ⟨none, "c"⟩] =
      (((base_query (Database.mk []
          [⟨⟨none, "a"⟩, "a", some 0, some 3, some 3, some 0, some true,
            false, false, none⟩,
           ⟨⟨none, "b"⟩, "b", some 0, some 4, some 4, some 0, some true,
            false, false, none⟩]
          [⟨⟨none, "a"⟩, none, none, none, none, none, none⟩,
           ⟨⟨none, "b"⟩, none, none, none, none, none, none⟩] [])).map
            (fun r => r.1.address)).filter
          (fun a => decide (a ∉ [(⟨none, "b"⟩ : JID), ⟨none, "c"⟩])),
       [(⟨none, "b"⟩ : JID), ⟨none, "c"⟩].filter
          (fun a => decide (a ∉ (base_query (Database.mk []
            [⟨⟨none, "a"⟩, "a", some 0, some 3, some 3, some 0, some true,
              false, false, none⟩,
             ⟨⟨none, "b"⟩, "b", some 0, some 4, some 4, some 0, some true,
              false, false, none⟩]
            [⟨⟨none, "a"⟩, none, none, none, none, none, none⟩,
             ⟨⟨none, "b"⟩, none, none, none, none, none, none⟩] [])).map
              (fun r => r.1.address))))) ∧
    ∀ a : JID,
      (a ∈ [(⟨none, "b"⟩ : JID), ⟨none, "c"⟩].filter
          (fun x => decide (x ∉ (init_sync_diff (Database.mk []
            [⟨⟨none, "a"⟩, "a", some 0, some 3, some 3, some 0, some true,
              false, false, none⟩,
             ⟨⟨none, "b"⟩, "b", some 0, some 4, some 4, some 0, some true,
              false, false, none⟩]
            [⟨⟨none, "a"⟩, none, none, none, none, none, none⟩,
             ⟨⟨none, "b"⟩, none, none, none, none, none, none⟩] [])
            [⟨none, "b"⟩, ⟨none, "c"⟩]).2)) ∨
        a ∈ (init_sync_diff (Database.mk []
            [⟨⟨none, "a"⟩, "a", some 0, some 3, some 3, some 0, some true,
              false, false, none⟩,
             ⟨⟨none, "b"⟩, "b", some 0, some 4, some 4, some 0, some true,
              false, false, none⟩]
            [⟨⟨none, "a"⟩, none, none, none, none, none, none⟩,
             ⟨⟨none, "b"⟩, none, none, none, none, none, none⟩] [])
            [⟨none, "b"⟩, ⟨none, "c"⟩]).1) ↔
      a ∈ (base_query (Database.mk []
          [⟨⟨none, "a"⟩, "a", some 0, some 3, some 3, some 0, some true,
            false, false, none⟩,
           ⟨⟨none, "b"⟩, "b", some 0, some 4, some 4, some 0, some true,
            false, false, none⟩]
          [⟨⟨none, "a"⟩, none, none, none, none, none, none⟩,
           ⟨⟨none, "b"⟩, none, none, none, none, none, none⟩] [])).map
        (fun r => r.1.address) :=
  C4_init_sync_amended (Database.mk []
      [⟨⟨none, "a"⟩, "a", some 0, some 3, some 3, some 0, some true, false,
        false, none⟩,
       ⟨⟨none, "b"⟩, "b", some 0, some 4, some 4, some 0, some true, false,
        false, none⟩]
      [⟨⟨none, "a"⟩, none, none, none, none, none, none⟩,
       ⟨⟨none, "b"⟩, none, none, none, none, none, none⟩] [])
    [⟨none, "b"⟩, ⟨none, "c"⟩] (by decide) (by decide)

end Muchopper
